import Mathlib

/-!
A verification development for the core terminal-emulation engine of the
konsole repository.  The definitions below are shallow embeddings of the
C++ sources (`src/Screen.cpp`, `src/CharacterColor.h`, `src/HistoryFile.cpp`,
`src/ScreenWindow.cpp`, `src/filterHotSpots/Filter.cpp`,
`src/filterHotSpots/RegExpFilter.cpp`, `src/HTMLDecoder.cpp`).  Machine
integers of the C++ code (int, qint64) are modelled as `Int`; bitmask types
(RenditionFlags, LineProperty) as `Nat` with bitwise operations; Qt container
types (`QVector`, `QList`) as Lean lists, with `QVector::value`'s
default-padding read modelled by `List.getD`.

Declarations whose C++ source is not part of the repository snapshot
(`Character.h`, `Screen.h` field declarations, the history-store classes
other than `HistoryFile`) are modelled from the specification and carry a
doc comment starting with `Modelled from the spec:`.
-/

set_option maxRecDepth 10000
set_option maxHeartbeats 1000000

namespace Konsole

/-! ## Color model (src/CharacterColor.h) -/

/-- Model of `QColor`: either invalid (the default-constructed `QColor()`)
or an RGB triple.  Channel values are the `int` arguments of the
`QColor(r, g, b)` constructor. -/
inductive QColor where
  | invalid : QColor
  | rgb (r g b : Int) : QColor
deriving Repr, DecidableEq

/-- Model of `ColorEntry::FontWeight` from src/CharacterColor.h. -/
inductive FontWeight where
  | Bold | Normal | UseCurrentFormat
deriving Repr, DecidableEq

/-- Model of `ColorEntry` from src/CharacterColor.h: a palette entry. -/
structure ColorEntry where
  color : QColor
  fontWeight : FontWeight
deriving Repr, DecidableEq

/-- Model of `BASE_COLORS` from src/CharacterColor.h: `(2+8)`. -/
def BASE_COLORS : Nat := 2 + 8
/-- Model of `INTENSITIES` from src/CharacterColor.h. -/
def INTENSITIES : Nat := 2
/-- Model of `TABLE_COLORS` from src/CharacterColor.h. -/
def TABLE_COLORS : Nat := INTENSITIES * BASE_COLORS

/-- Model of `DEFAULT_FORE_COLOR` from src/CharacterColor.h. -/
def DEFAULT_FORE_COLOR : Nat := 0
/-- Model of `DEFAULT_BACK_COLOR` from src/CharacterColor.h. -/
def DEFAULT_BACK_COLOR : Nat := 1

/-- Color-space tags from src/CharacterColor.h. -/
def COLOR_SPACE_UNDEFINED : Nat := 0
def COLOR_SPACE_DEFAULT : Nat := 1
def COLOR_SPACE_SYSTEM : Nat := 2
def COLOR_SPACE_256 : Nat := 3
def COLOR_SPACE_RGB : Nat := 4

/-- Model of `CharacterColor` from src/CharacterColor.h: a color-space tag plus
three bytes `_u`, `_v`, `_w`. -/
structure CharacterColor where
  colorSpace : Nat
  u : Nat
  v : Nat
  w : Nat
deriving Repr, DecidableEq

/-- The default `CharacterColor()` constructor: undefined color space,
all bytes zero. -/
def CharacterColor.undefined : CharacterColor :=
  ⟨COLOR_SPACE_UNDEFINED, 0, 0, 0⟩

/-- The `CharacterColor(quint8 colorSpace, int co)` constructor from
src/CharacterColor.h.  The color argument `co` is taken as a `Nat` (the
drivers pass non-negative system/index values); `co & 1`, `co & 7`,
`(co >> 3) & 1`, `co & 255` and the byte truncation of the RGB shifts
are written with `%` and `/`, which agree with the C++ bit operations on
non-negative values. -/
def CharacterColor.make (colorSpace : Nat) (co : Nat) : CharacterColor :=
  if colorSpace = COLOR_SPACE_DEFAULT then
    ⟨colorSpace, co % 2, 0, 0⟩
  else if colorSpace = COLOR_SPACE_SYSTEM then
    ⟨colorSpace, co % 8, (co / 8) % 2, 0⟩
  else if colorSpace = COLOR_SPACE_256 then
    ⟨colorSpace, co % 256, 0, 0⟩
  else if colorSpace = COLOR_SPACE_RGB then
    ⟨colorSpace, (co / 65536) % 256, (co / 256) % 256, co % 256⟩
  else
    ⟨COLOR_SPACE_UNDEFINED, 0, 0, 0⟩

/-- Model of `CharacterColor::isValid` from src/CharacterColor.h. -/
def CharacterColor.isValid (c : CharacterColor) : Bool :=
  c.colorSpace ≠ COLOR_SPACE_UNDEFINED

/-- Model of `CharacterColor::setIntensive` from src/CharacterColor.h. -/
def CharacterColor.setIntensive (c : CharacterColor) : CharacterColor :=
  if c.colorSpace = COLOR_SPACE_SYSTEM ∨ c.colorSpace = COLOR_SPACE_DEFAULT then
    { c with v := 1 }
  else c

/-- Modelled from the spec: `CharacterColor::setFaint` is called by
`Screen::updateEffectiveRendition` (src/Screen.cpp:596) but the member is
absent from the `CharacterColor.h` present in the sources.  Per the spec,
faint-without-bold "sets faint" on the effective foreground; we model it
parallel to `setIntensive`, marking the intensity byte of a palette-based
color with a distinct faint value. -/
def CharacterColor.setFaint (c : CharacterColor) : CharacterColor :=
  if c.colorSpace = COLOR_SPACE_SYSTEM ∨ c.colorSpace = COLOR_SPACE_DEFAULT then
    { c with v := 2 }
  else c

/-- Model of `color256` from src/CharacterColor.h.  The palette pointer `base` is
modelled as a function from array index to `ColorEntry`.  The C++ body
destructively decrements `u`; the `let` rebindings mirror that. -/
def color256 (u : Nat) (base : Nat → ColorEntry) : QColor :=
  --   0.. 16: system colors
  if u < 8 then (base (u + 2)).color
  else
    let u := u - 8
    if u < 8 then (base (u + 2 + BASE_COLORS)).color
    else
      let u := u - 8
      --  16..231: 6x6x6 rgb color cube
      if u < 216 then
        QColor.rgb (if (u / 36) % 6 ≠ 0 then 40 * ((u / 36) % 6) + 55 else 0)
                   (if (u / 6) % 6 ≠ 0 then 40 * ((u / 6) % 6) + 55 else 0)
                   (if (u / 1) % 6 ≠ 0 then 40 * ((u / 1) % 6) + 55 else 0)
      else
        -- 232..255: gray, leaving out black and white
        let u := u - 216
        QColor.rgb (u * 10 + 8) (u * 10 + 8) (u * 10 + 8)

/-- Model of `CharacterColor::color` from src/CharacterColor.h. -/
def CharacterColor.color (c : CharacterColor) (base : Nat → ColorEntry) : QColor :=
  if c.colorSpace = COLOR_SPACE_DEFAULT then
    (base (c.u + 0 + (if c.v ≠ 0 then BASE_COLORS else 0))).color
  else if c.colorSpace = COLOR_SPACE_SYSTEM then
    (base (c.u + 2 + (if c.v ≠ 0 then BASE_COLORS else 0))).color
  else if c.colorSpace = COLOR_SPACE_256 then
    color256 c.u base
  else if c.colorSpace = COLOR_SPACE_RGB then
    QColor.rgb c.u c.v c.w
  else
    QColor.invalid

/-! Specification-side restatement of the 256-color resolution, written
from the spec's words for claim C6: 0..7 map to the palette's normal
system colors, 8..15 to its intensive system colors, 16..231 to the
6×6×6 cube with channel values `{0, 95, 135, 175, 215, 255}` selected by
the base-6 digits, 232..255 to the 24-step grayscale `8 + 10*(u-232)`. -/

/-- Cube channel value for one base-6 digit: digit 0 gives 0, digit
`d > 0` gives `40*d + 55`. -/
def cubeChannel (d : Nat) : Int :=
  if d = 0 then 0 else 40 * d + 55

/-- The spec's description of Indexed-256 resolution (claim C6). -/
def color256Spec (u : Nat) (base : Nat → ColorEntry) : QColor :=
  if u ≤ 7 then (base (u + 2)).color
  else if u ≤ 15 then (base ((u - 8) + 2 + BASE_COLORS)).color
  else if u ≤ 231 then
    let k := u - 16
    QColor.rgb (cubeChannel (k / 36)) (cubeChannel ((k / 6) % 6)) (cubeChannel (k % 6))
  else
    QColor.rgb (8 + 10 * (u - 232)) (8 + 10 * (u - 232)) (8 + 10 * (u - 232))

theorem color256_eq_spec (u : Nat) (hu : u ≤ 255) (base : Nat → ColorEntry) :
    color256 u base = color256Spec u base := by
  unfold color256 color256Spec cubeChannel
  rcases Nat.lt_or_ge u 8 with h8 | h8
  · rw [if_pos h8, if_pos (by omega : u ≤ 7)]
  · rw [if_neg (by omega : ¬ u < 8), if_neg (by omega : ¬ u ≤ 7)]
    rcases Nat.lt_or_ge u 16 with h16 | h16
    · rw [if_pos (by omega : u - 8 < 8), if_pos (by omega : u ≤ 15)]
    · rw [if_neg (by omega : ¬ u - 8 < 8), if_neg (by omega : ¬ u ≤ 15)]
      rcases Nat.lt_or_ge u 232 with h232 | h232
      · rw [if_pos (by omega : u - 8 - 8 < 216), if_pos (by omega : u ≤ 231)]
        have e1 : u - 8 - 8 = u - 16 := by omega
        rw [e1, Nat.div_one]
        have hdiv : (u - 16) / 36 < 6 := by omega
        rw [Nat.mod_eq_of_lt hdiv]
        by_cases hz : (u - 16) / 36 = 0 <;>
        by_cases hy : ((u - 16) / 6) % 6 = 0 <;>
        by_cases hx : (u - 16) % 6 = 0 <;>
          simp [hz, hy, hx] <;> omega
      · rw [if_neg (by omega : ¬ u - 8 - 8 < 216), if_neg (by omega : ¬ u ≤ 231)]
        have e1 : u - 8 - 8 - 216 = u - 232 := by omega
        rw [e1]
        push_cast [Nat.cast_sub (by omega : 232 ≤ u)]
        ring_nf

/-- C6: for every index `u` in 0..255 and every palette, resolving an
Indexed-256 `CharacterColor` yields the palette's normal system color `u`
for `u` in 0..7, the palette's intensive system color `u - 8` for `u` in
8..15, the 6×6×6 cube color with channels `{0, 95, 135, 175, 215, 255}`
selected by the base-6 digits of `u - 16` for `u` in 16..231, and the
gray value `8 + 10*(u - 232)` for `u` in 232..255. -/
theorem color256_resolution (u : Nat) (hu : u ≤ 255) (base : Nat → ColorEntry) :
    (CharacterColor.make COLOR_SPACE_256 u).color base = color256Spec u base := by
  have hmk : CharacterColor.make COLOR_SPACE_256 u = ⟨COLOR_SPACE_256, u % 256, 0, 0⟩ := by
    unfold CharacterColor.make
    norm_num [COLOR_SPACE_256, COLOR_SPACE_DEFAULT, COLOR_SPACE_SYSTEM]
  rw [hmk, Nat.mod_eq_of_lt (by omega : u < 256)]
  unfold CharacterColor.color
  norm_num [COLOR_SPACE_256, COLOR_SPACE_DEFAULT, COLOR_SPACE_SYSTEM]
  exact color256_eq_spec u hu base

/-- A concrete test palette used by witnesses. -/
def testPalette : Nat → ColorEntry :=
  fun i => ⟨QColor.rgb i (2 * i) (3 * i), FontWeight.UseCurrentFormat⟩

/-- Witness for C6: instantiates the theorem at a cube index and at a
grayscale index of the concrete `testPalette`. -/
theorem color256_resolution_witness :
    ((196 : Nat) ≤ 255 ∧
      (CharacterColor.make COLOR_SPACE_256 196).color testPalette = color256Spec 196 testPalette) ∧
    ((240 : Nat) ≤ 255 ∧
      (CharacterColor.make COLOR_SPACE_256 240).color testPalette = color256Spec 240 testPalette) :=
  ⟨⟨by decide, color256_resolution 196 (by decide) testPalette⟩,
   ⟨by decide, color256_resolution 240 (by decide) testPalette⟩⟩

/-! ## Character model -/

/-- Modelled from the spec: the rendition bitmask flags (`Character.h` is
not part of the repository snapshot).  Per the spec the rendition is a
16-bit bitmask with flags for bold, underline, blink, reverse, italic,
strikeout, overline, faint, conceal, extended-char, selected, cursor and
current-URL; each flag is one distinct bit. -/
def RE_BOLD : Nat := 1
def RE_BLINK : Nat := 2
def RE_UNDERLINE : Nat := 4
def RE_REVERSE : Nat := 8
def RE_ITALIC : Nat := 16
def RE_CURSOR : Nat := 32
def RE_EXTENDED_CHAR : Nat := 64
def RE_FAINT : Nat := 128
def RE_STRIKEOUT : Nat := 256
def RE_CONCEAL : Nat := 512
def RE_OVERLINE : Nat := 1024
def RE_SELECTED : Nat := 2048
/-- Modelled from the spec: the default (empty) rendition bitmask. -/
def DEFAULT_RENDITION : Nat := 0

/-- Modelled from the spec: line-property bits (`Character.h` is not in
the snapshot).  Per the spec a line carries default/wrapped/double-width/
double-height bits; `LINE_WRAPPED` is the bit tested by
`Screen::addHistLine`. -/
def LINE_DEFAULT : Nat := 0
def LINE_WRAPPED : Nat := 1
def LINE_DOUBLEWIDTH : Nat := 2
def LINE_DOUBLEHEIGHT : Nat := 4

/-- Modelled from the spec: the cell value type `Character` (`Character.h`
is not in the snapshot).  Per the spec §3 it carries a code point (or an
interned extended-character key), foreground and background colors, a
rendition bitmask and an `isRealCharacter` flag; equality is field-wise. -/
structure Character where
  character : Nat
  foregroundColor : CharacterColor
  backgroundColor : CharacterColor
  rendition : Nat
  isRealCharacter : Bool
deriving Repr, DecidableEq

/-- Modelled from the spec: `Character::isSpace`, used by the HTML
decoder's consecutive-space handling ("consecutive spaces after the
first").  An extended-character cell is never a space; otherwise the cell
is a space when its code point is the blank character. -/
def Character.isSpace (c : Character) : Bool :=
  if c.rendition &&& RE_EXTENDED_CHAR ≠ 0 then false
  else c.character = 32

/-- Model of `Screen::DefaultChar` from src/Screen.cpp:44. -/
def DefaultChar : Character :=
  ⟨32, CharacterColor.make COLOR_SPACE_DEFAULT DEFAULT_FORE_COLOR,
       CharacterColor.make COLOR_SPACE_DEFAULT DEFAULT_BACK_COLOR,
       DEFAULT_RENDITION, false⟩

/-- Modelled from the spec: the `Character()` value used by
`QVector<Character>::resize` when it grows a line (value-initialized
elements).  Per the spec's data model the default cell is a blank with the
default colors; the default constructor marks it as a real character. -/
def characterDefault : Character :=
  ⟨32, CharacterColor.make COLOR_SPACE_DEFAULT DEFAULT_FORE_COLOR,
       CharacterColor.make COLOR_SPACE_DEFAULT DEFAULT_BACK_COLOR,
       DEFAULT_RENDITION, true⟩

/-! ## History store -/

/-- Modelled from the spec: one retired line of the history store -
cells plus the wrapped flag (§3 "append a line (cells + attributes +
wrapped-flag)"). -/
structure HistLine where
  cells : List Character
  wrapped : Bool
deriving Repr, DecidableEq

/-- Modelled from the spec: the history store interface (§3, §4.2).  The
concrete store classes (None / file-backed unlimited / compact bounded)
are not in the snapshot; we model a store as a flag saying whether it
accepts lines (`hasScroll`), an optional capacity (`none` = unlimited),
and the stored lines, oldest first. -/
structure History where
  hasScrollFlag : Bool
  capacity : Option Nat
  histLines : List HistLine
deriving Repr, DecidableEq

/-- Model of `HistoryScroll::hasScroll`: false only for the None store. -/
def History.hasScroll (h : History) : Bool := h.hasScrollFlag

/-- Model of `HistoryScroll::getLines` (the stored line count). -/
def History.getLines (h : History) : Int := h.histLines.length

/-- Modelled from the spec: the `addCellsVector`/`addLine` pair that
appends one line to the store (§4.2 "append ... O(1) amortized. For the
bounded implementation, if at capacity, the oldest line is dropped").
The None store (`hasScroll = false`) stores nothing. -/
def History.addLine (h : History) (cells : List Character) (wrapped : Bool) : History :=
  if ¬ h.hasScrollFlag then h
  else
    match h.capacity with
    | none => { h with histLines := h.histLines ++ [⟨cells, wrapped⟩] }
    | some cap =>
        if h.histLines.length < cap then
          { h with histLines := h.histLines ++ [⟨cells, wrapped⟩] }
        else
          -- ring buffer at capacity: overflow drops the oldest line
          { h with histLines := h.histLines.drop 1 ++ [⟨cells, wrapped⟩] }

/-! ## Screen state (src/Screen.cpp) -/

/-- Modelled from the spec: the saved-cursor block (§3 "saved cursor
block (column, line, rendition, fore, back)"); the `SavedState` member
struct is declared in `Screen.h`, which is not in the snapshot, but its
fields are fixed by their uses in src/Screen.cpp:351-368. -/
structure SavedState where
  cursorColumn : Int
  cursorLine : Int
  rendition : Nat
  foreground : CharacterColor
  background : CharacterColor
deriving Repr, DecidableEq

/-- Model of the `Screen` state.  Field declarations live in `Screen.h`
(not in the snapshot); every field below is fixed by its uses in
src/Screen.cpp.  `lastScrolledRegion` is a `QRect` stored as
(x, y, width, height). -/
structure Screen where
  lines : Int
  columns : Int
  screenLines : List (List Character)
  lineProperties : List Nat
  history : History
  cuX : Int
  cuY : Int
  currentForeground : CharacterColor
  currentBackground : CharacterColor
  currentRendition : Nat
  topMargin : Int
  bottomMargin : Int
  selBegin : Int
  selTopLeft : Int
  selBottomRight : Int
  blockSelectionMode : Bool
  effectiveForeground : CharacterColor
  effectiveBackground : CharacterColor
  effectiveRendition : Nat
  savedState : SavedState
  scrolledLines : Int
  droppedLines : Int
  lastPos : Int
  lastScrolledRegion : Int × Int × Int × Int
deriving Repr, DecidableEq

namespace Screen

/-- Model of the `loc(X, Y)` macro from src/Screen.cpp:41. -/
def loc (s : Screen) (x y : Int) : Int := y * s.columns + x

/-- Model of the 16-bit complement used by `_currentRendition &= ~rendition`
(RenditionFlags is a 16-bit mask per the spec). -/
def renditionNot (r : Nat) : Nat := 65535 ^^^ (r &&& 65535)

/-- Model of `Screen::updateEffectiveRendition` from src/Screen.cpp:579. -/
def updateEffectiveRendition (s : Screen) : Screen :=
  let s := { s with effectiveRendition := s.currentRendition }
  let s :=
    if s.currentRendition &&& RE_REVERSE ≠ 0 then
      { s with effectiveForeground := s.currentBackground,
               effectiveBackground := s.currentForeground }
    else
      { s with effectiveForeground := s.currentForeground,
               effectiveBackground := s.currentBackground }
  if s.currentRendition &&& RE_BOLD ≠ 0 then
    if s.currentRendition &&& RE_FAINT = 0 then
      { s with effectiveForeground := s.effectiveForeground.setIntensive }
    else s
  else
    if s.currentRendition &&& RE_FAINT ≠ 0 then
      { s with effectiveForeground := s.effectiveForeground.setFaint }
    else s

/-- Model of `Screen::saveCursor` from src/Screen.cpp:351. -/
def saveCursor (s : Screen) : Screen :=
  { s with savedState :=
      ⟨s.cuX, s.cuY, s.currentRendition, s.currentForeground, s.currentBackground⟩ }

/-- Model of `Screen::restoreCursor` from src/Screen.cpp:360. -/
def restoreCursor (s : Screen) : Screen :=
  let s := { s with
    cuX := min s.savedState.cursorColumn (s.columns - 1),
    cuY := min s.savedState.cursorLine (s.lines - 1),
    currentRendition := s.savedState.rendition,
    currentForeground := s.savedState.foreground,
    currentBackground := s.savedState.background }
  s.updateEffectiveRendition

/-- Model of `Screen::setRendition` from src/Screen.cpp:1232. -/
def setRendition (s : Screen) (rendition : Nat) : Screen :=
  ({ s with currentRendition := s.currentRendition ||| rendition }).updateEffectiveRendition

/-- Model of `Screen::resetRendition` from src/Screen.cpp:1238. -/
def resetRendition (s : Screen) (rendition : Nat) : Screen :=
  ({ s with currentRendition := s.currentRendition &&& renditionNot rendition }).updateEffectiveRendition

/-- Model of `Screen::setForeColor` from src/Screen.cpp:1252.  The C++
recurses with `(COLOR_SPACE_DEFAULT, DEFAULT_FORE_COLOR)` when the
constructed color is invalid; that recursive call always takes the valid
branch, so it is inlined here. -/
def setForeColor (s : Screen) (space : Nat) (color : Nat) : Screen :=
  let c := CharacterColor.make space color
  if c.isValid then
    ({ s with currentForeground := c }).updateEffectiveRendition
  else
    ({ s with currentForeground :=
        CharacterColor.make COLOR_SPACE_DEFAULT DEFAULT_FORE_COLOR }).updateEffectiveRendition

/-- Model of `Screen::setBackColor` from src/Screen.cpp:1263, with the
invalid-color recursion inlined as in `setForeColor`. -/
def setBackColor (s : Screen) (space : Nat) (color : Nat) : Screen :=
  let c := CharacterColor.make space color
  if c.isValid then
    ({ s with currentBackground := c }).updateEffectiveRendition
  else
    ({ s with currentBackground :=
        CharacterColor.make COLOR_SPACE_DEFAULT DEFAULT_BACK_COLOR }).updateEffectiveRendition

/-- Model of `Screen::setDefaultRendition` from src/Screen.cpp:1244. -/
def setDefaultRendition (s : Screen) : Screen :=
  let s := s.setForeColor COLOR_SPACE_DEFAULT DEFAULT_FORE_COLOR
  let s := s.setBackColor COLOR_SPACE_DEFAULT DEFAULT_BACK_COLOR
  ({ s with currentRendition := DEFAULT_RENDITION }).updateEffectiveRendition

/-- Model of `Screen::clearSelection` from src/Screen.cpp:1274. -/
def clearSelection (s : Screen) : Screen :=
  { s with selBottomRight := -1, selTopLeft := -1, selBegin := -1 }

end Screen

/-! ## Claims C4 and C5: cursor save/restore and effective rendition -/

/-- The spec's derivation of the effective attributes from the current
ones (claim C5): effective rendition equals current rendition; reverse
swaps foreground/background; bold-without-faint makes the effective
foreground intensive; faint-without-bold makes it faint. -/
def effectiveDerivation (r : Nat) (f b : CharacterColor) :
    Nat × CharacterColor × CharacterColor :=
  let ef := if r &&& RE_REVERSE ≠ 0 then b else f
  let eb := if r &&& RE_REVERSE ≠ 0 then f else b
  let ef :=
    if r &&& RE_BOLD ≠ 0 ∧ r &&& RE_FAINT = 0 then ef.setIntensive
    else if r &&& RE_FAINT ≠ 0 ∧ r &&& RE_BOLD = 0 then ef.setFaint
    else ef
  (r, ef, eb)

/-- The effective attributes of a screen agree with the spec's
derivation from its current attributes. -/
def Screen.effectiveConsistent (s : Screen) : Prop :=
  (s.effectiveRendition, s.effectiveForeground, s.effectiveBackground) =
    effectiveDerivation s.currentRendition s.currentForeground s.currentBackground

theorem updateEffectiveRendition_eq (s : Screen) :
    s.updateEffectiveRendition =
      { s with
        effectiveRendition :=
          (effectiveDerivation s.currentRendition s.currentForeground s.currentBackground).1,
        effectiveForeground :=
          (effectiveDerivation s.currentRendition s.currentForeground s.currentBackground).2.1,
        effectiveBackground :=
          (effectiveDerivation s.currentRendition s.currentForeground s.currentBackground).2.2 } := by
  unfold Screen.updateEffectiveRendition effectiveDerivation
  by_cases hrev : s.currentRendition &&& RE_REVERSE ≠ 0 <;>
  by_cases hbold : s.currentRendition &&& RE_BOLD ≠ 0 <;>
  by_cases hfaint : s.currentRendition &&& RE_FAINT = 0 <;>
    simp_all

theorem updateEffectiveRendition_consistent (s : Screen) :
    s.updateEffectiveRendition.effectiveConsistent := by
  rw [Screen.effectiveConsistent, updateEffectiveRendition_eq]

/-- C5: after every call to `setRendition`, `resetRendition`,
`setDefaultRendition`, `setForeColor`, `setBackColor` or `restoreCursor`,
the effective attributes equal the spec's derivation from the current
ones: effective rendition equals current rendition; reverse swaps the
effective foreground/background; bold-without-faint makes the effective
foreground intensive; faint-without-bold makes it faint. -/
theorem rendition_updates_keep_effective_consistent
    (s : Screen) (r : Nat) (space color : Nat) :
    (s.setRendition r).effectiveConsistent ∧
    (s.resetRendition r).effectiveConsistent ∧
    (s.setDefaultRendition).effectiveConsistent ∧
    (s.setForeColor space color).effectiveConsistent ∧
    (s.setBackColor space color).effectiveConsistent ∧
    (s.restoreCursor).effectiveConsistent := by
  refine ⟨?_, ?_, ?_, ?_, ?_, ?_⟩
  · exact updateEffectiveRendition_consistent _
  · exact updateEffectiveRendition_consistent _
  · unfold Screen.setDefaultRendition
    exact updateEffectiveRendition_consistent _
  · unfold Screen.setForeColor
    dsimp only
    split <;> exact updateEffectiveRendition_consistent _
  · unfold Screen.setBackColor
    dsimp only
    split <;> exact updateEffectiveRendition_consistent _
  · unfold Screen.restoreCursor
    exact updateEffectiveRendition_consistent _

/-- C4: a `saveCursor()` immediately followed by `restoreCursor()`
leaves the current rendition, foreground and background at their values
at save time, and sets `cuX` to `min(saved cuX, columns - 1)` and `cuY`
to `min(saved cuY, lines - 1)`; when the saved `cuX < columns` and
`cuY < lines`, the pair of calls is the identity on
`(cuX, cuY, rendition, foreground, background)`. -/
theorem saveCursor_restoreCursor (s : Screen) :
    (s.saveCursor.restoreCursor).currentRendition = s.currentRendition ∧
    (s.saveCursor.restoreCursor).currentForeground = s.currentForeground ∧
    (s.saveCursor.restoreCursor).currentBackground = s.currentBackground ∧
    (s.saveCursor.restoreCursor).cuX = min s.cuX (s.columns - 1) ∧
    (s.saveCursor.restoreCursor).cuY = min s.cuY (s.lines - 1) ∧
    (s.cuX < s.columns → s.cuY < s.lines →
      (s.saveCursor.restoreCursor).cuX = s.cuX ∧
      (s.saveCursor.restoreCursor).cuY = s.cuY) := by
  unfold Screen.saveCursor Screen.restoreCursor
  rw [updateEffectiveRendition_eq]
  refine ⟨rfl, rfl, rfl, rfl, rfl, fun hx hy => ⟨?_, ?_⟩⟩ <;> simp <;> omega

/-- A concrete screen used by witnesses. -/
def testScreen : Screen where
  lines := 24
  columns := 80
  screenLines := List.replicate 25 []
  lineProperties := List.replicate 25 0
  history := ⟨true, some 100, []⟩
  cuX := 3
  cuY := 5
  currentForeground := CharacterColor.make COLOR_SPACE_DEFAULT DEFAULT_FORE_COLOR
  currentBackground := CharacterColor.make COLOR_SPACE_DEFAULT DEFAULT_BACK_COLOR
  currentRendition := DEFAULT_RENDITION
  topMargin := 0
  bottomMargin := 23
  selBegin := -1
  selTopLeft := -1
  selBottomRight := -1
  blockSelectionMode := false
  effectiveForeground := CharacterColor.make COLOR_SPACE_DEFAULT DEFAULT_FORE_COLOR
  effectiveBackground := CharacterColor.make COLOR_SPACE_DEFAULT DEFAULT_BACK_COLOR
  effectiveRendition := DEFAULT_RENDITION
  savedState := ⟨0, 0, DEFAULT_RENDITION,
    CharacterColor.make COLOR_SPACE_DEFAULT DEFAULT_FORE_COLOR,
    CharacterColor.make COLOR_SPACE_DEFAULT DEFAULT_BACK_COLOR⟩
  scrolledLines := 0
  droppedLines := 0
  lastPos := -1
  lastScrolledRegion := (0, 0, 0, 0)

/-- Witness for C4: on the concrete `testScreen` (cursor at (3, 5) on a
24×80 screen) the save/restore pair is the identity on the cursor. -/
theorem saveCursor_restoreCursor_witness :
    (testScreen.saveCursor.restoreCursor).cuX = testScreen.cuX ∧
    (testScreen.saveCursor.restoreCursor).cuY = testScreen.cuY :=
  (saveCursor_restoreCursor testScreen).2.2.2.2.2 (by decide) (by decide)

/-! ## HistoryFile (src/HistoryFile.cpp) -/

/-- Model of `INT_MAX` (32-bit int). -/
def INT_MAX : Int := 2147483647
/-- Model of `INT_MIN` (32-bit int). -/
def INT_MIN : Int := -2147483648

/-- Modelled from the spec: `MAP_THRESHOLD`, declared in `HistoryFile.h`
(not in the snapshot).  It is the negative read/write-balance threshold
below which the log file is memory-mapped ("may memory-map the file for
read-heavy phases"); its exact value is irrelevant to the claims. -/
def MAP_THRESHOLD : Int := -1000

/-- Model of the `HistoryFile` state from src/HistoryFile.cpp: the
recorded `_length`, the bytes actually stored in the temporary file, the
`_fileMap` pointer (as a flag), and `_readWriteBalance`.  File-system
outcomes (seek/write/read/mmap success) are supplied as oracle arguments
to the operations. -/
structure HistoryFile where
  length : Int
  data : List Nat
  fileMap : Bool
  readWriteBalance : Int
deriving Repr, DecidableEq

/-- Model of `HistoryFile::add` from src/HistoryFile.cpp:67.  `seekOk`
is the result of `_tmpFile.seek(_length)` and `writeRc` the return value
of `_tmpFile.write(buffer, count)` (negative = failure; otherwise the
number of bytes written). -/
def HistoryFile.add (h : HistoryFile) (buffer : List Nat) (count : Int)
    (seekOk : Bool) (writeRc : Int) : HistoryFile :=
  let _ := count
  -- if (_fileMap) unmap();
  let h := if h.fileMap then { h with fileMap := false } else h
  -- if (_readWriteBalance < INT_MAX) _readWriteBalance++;
  let h := if h.readWriteBalance < INT_MAX then
             { h with readWriteBalance := h.readWriteBalance + 1 } else h
  -- if (!_tmpFile.seek(_length)) { perror(...); return; }
  if !seekOk then h
  -- rc = _tmpFile.write(buffer, count); if (rc < 0) { perror(...); return; }
  else if writeRc < 0 then h
  -- _length += rc;
  else { h with data := h.data ++ buffer.take writeRc.toNat,
                length := h.length + writeRc }

/-- Model of `HistoryFile::get` from src/HistoryFile.cpp:89.  The caller
buffer is modelled by the returned `Option`: `none` means the buffer was
not written.  `mapOk` is the outcome of `map()`'s mmap attempt, `seekOk`
of `_tmpFile.seek(loc)`, and `readRc` the return value of
`_tmpFile.read` (negative = failure). -/
def HistoryFile.get (h : HistoryFile) (size loc : Int)
    (mapOk seekOk : Bool) (readRc : Int) : HistoryFile × Option (List Nat) :=
  -- if (loc < 0 || size < 0 || loc + size > _length) { fprintf(...); return; }
  if loc < 0 ∨ size < 0 ∨ loc + size > h.length then (h, none)
  else
    -- if (_readWriteBalance > INT_MIN) _readWriteBalance--;
    let h := if h.readWriteBalance > INT_MIN then
               { h with readWriteBalance := h.readWriteBalance - 1 } else h
    -- if (!_fileMap && _readWriteBalance < MAP_THRESHOLD) map();
    let h :=
      if ¬ h.fileMap ∧ h.readWriteBalance < MAP_THRESHOLD then
        -- map(): on success installs the mapping, on failure resets the balance
        if mapOk then { h with fileMap := true } else { h with readWriteBalance := 0 }
      else h
    if h.fileMap then (h, some ((h.data.drop loc.toNat).take size.toNat))
    else
      -- if (!_tmpFile.seek(loc)) { perror(...); return; }
      if !seekOk then (h, none)
      -- rc = _tmpFile.read(buffer, size); if (rc < 0) { perror(...); return; }
      else if readRc < 0 then (h, none)
      else (h, some ((h.data.drop loc.toNat).take readRc.toNat))

/-- C7: `HistoryFile::get` with `loc < 0` or `size < 0` or
`loc + size > len()` reports the error and returns without reading: the
whole stored state is unchanged and the caller's buffer is not written
(no error escapes to the caller - the function returns normally);
`HistoryFile::add` on a seek or write failure returns without updating
the stored length, preserving the data already written. -/
theorem historyFile_error_handling (h : HistoryFile) (size loc : Int)
    (mapOk seekOk : Bool) (readRc : Int)
    (buffer : List Nat) (count : Int) (sOk : Bool) (wRc : Int) :
    ((loc < 0 ∨ size < 0 ∨ loc + size > h.length) →
      h.get size loc mapOk seekOk readRc = (h, none)) ∧
    ((sOk = false ∨ wRc < 0) →
      (h.add buffer count sOk wRc).length = h.length ∧
      (h.add buffer count sOk wRc).data = h.data) := by
  constructor
  · intro hbad
    unfold HistoryFile.get
    rw [if_pos hbad]
  · intro herr
    unfold HistoryFile.add
    by_cases hf : h.fileMap <;>
    rcases herr with he | he <;>
    by_cases hs : sOk <;>
      simp_all <;> split <;> simp_all

/-- A concrete history file used by the witness of C7. -/
def testHistoryFile : HistoryFile := ⟨5, [1, 2, 3, 4, 5], false, 0⟩

/-- Witness for C7: a read of 3 bytes at offset 4 of a 5-byte file is
rejected without touching anything, and an `add` whose seek fails leaves
length and contents alone. -/
theorem historyFile_error_handling_witness :
    (testHistoryFile.get 3 4 true true 0 = (testHistoryFile, none)) ∧
    ((testHistoryFile.add [9] 1 false 1).length = testHistoryFile.length ∧
     (testHistoryFile.add [9] 1 false 1).data = testHistoryFile.data) :=
  ⟨(historyFile_error_handling testHistoryFile 3 4 true true 0 [9] 1 false 1).1
      (by decide),
   (historyFile_error_handling testHistoryFile 3 4 true true 0 [9] 1 false 1).2
      (Or.inl rfl)⟩

/-! ## ScreenWindow (src/ScreenWindow.cpp) -/

/-- Model of `ScreenWindow::RelativeScrollMode` from `ScreenWindow.h`
(fixed by its uses in src/ScreenWindow.cpp:232-242). -/
inductive RelativeScrollMode where
  | ScrollLines | ScrollPages
deriving Repr, DecidableEq

/-- Values a `ScreenWindow` reads from its `Screen`:
`_screen->getHistLines()`, `_screen->getLines()`,
`_screen->scrolledLines()`, `_screen->droppedLines()`. -/
structure ScreenObs where
  histLines : Int
  screenLineCount : Int
  scrolledLines : Int
  droppedLines : Int
deriving Repr, DecidableEq

/-- Model of `ScreenWindow::lineCount` from src/ScreenWindow.cpp:192:
`getHistLines() + getLines()`. -/
def ScreenObs.lineCount (obs : ScreenObs) : Int :=
  obs.histLines + obs.screenLineCount

/-- Model of `std::clamp(v, lo, hi)` as evaluated by its definition
(`v < lo ? lo : hi < v ? hi : v`). -/
def stdClamp (v lo hi : Int) : Int :=
  if v < lo then lo else if hi < v then hi else v

/-- Model of the `ScreenWindow` state (fields fixed by their uses in
src/ScreenWindow.cpp).  `currentLine_` is the raw `_currentLine` field;
the clamping getter is `ScreenWindow.currentLine`. -/
structure ScreenWindow where
  currentLine_ : Int
  windowLines_ : Int
  scrollCount : Int
  trackOutput : Bool
  bufferNeedsUpdate : Bool
deriving Repr, DecidableEq

namespace ScreenWindow

/-- Model of `ScreenWindow::currentLine` from src/ScreenWindow.cpp:212:
`std::clamp(_currentLine, 0, std::max(0, lineCount() - windowLines()))`. -/
def currentLine (w : ScreenWindow) (obs : ScreenObs) : Int :=
  stdClamp w.currentLine_ 0 (max 0 (obs.lineCount - w.windowLines_))

/-- Model of `ScreenWindow::scrollTo` from src/ScreenWindow.cpp:249. -/
def scrollTo (w : ScreenWindow) (obs : ScreenObs) (line : Int) : ScreenWindow :=
  let maxCurrentLineNumber := obs.lineCount - w.windowLines_
  let line := stdClamp line 0 maxCurrentLineNumber
  let delta := line - w.currentLine_
  { w with currentLine_ := line,
           scrollCount := w.scrollCount + delta,
           bufferNeedsUpdate := true }

/-- Model of `ScreenWindow::scrollBy` from src/ScreenWindow.cpp:232. -/
def scrollBy (w : ScreenWindow) (obs : ScreenObs)
    (mode : RelativeScrollMode) (amount : Int) (fullPage : Bool) : ScreenWindow :=
  match mode with
  | .ScrollLines => w.scrollTo obs (w.currentLine obs + amount)
  | .ScrollPages =>
      if fullPage then w.scrollTo obs (w.currentLine obs + amount * w.windowLines_)
      else w.scrollTo obs (w.currentLine obs + amount * (w.windowLines_ / 2))

/-- Model of `ScreenWindow::setWindowLines` from src/ScreenWindow.cpp:177. -/
def setWindowLines (w : ScreenWindow) (n : Int) : ScreenWindow :=
  { w with windowLines_ := n }

/-- Model of `ScreenWindow::notifyOutputChanged` from
src/ScreenWindow.cpp:296. -/
def notifyOutputChanged (w : ScreenWindow) (obs : ScreenObs) : ScreenWindow :=
  if w.trackOutput then
    { w with scrollCount := w.scrollCount - obs.scrolledLines,
             currentLine_ := max 0 (obs.histLines - (w.windowLines_ - obs.screenLineCount)),
             bufferNeedsUpdate := true }
  else
    let cl := max 0 (w.currentLine_ - obs.droppedLines)
    { w with currentLine_ := min cl obs.histLines,
             bufferNeedsUpdate := true }

end ScreenWindow

/-- Statement that a window's reported scroll position lies within the
valid range for a given screen size (claim C8). -/
def currentLineInRange (w : ScreenWindow) (obs : ScreenObs) : Prop :=
  0 ≤ w.currentLine obs ∧ w.currentLine obs ≤ max 0 (obs.lineCount - w.windowLines_)

theorem currentLine_always_in_range (w : ScreenWindow) (obs : ScreenObs) :
    currentLineInRange w obs := by
  unfold currentLineInRange ScreenWindow.currentLine stdClamp
  by_cases h1 : w.currentLine_ < 0 <;>
  by_cases h2 : max 0 (obs.lineCount - w.windowLines_) < w.currentLine_ <;>
    simp [h1, h2]
  all_goals omega

/-- C8: the value returned by `currentLine()` lies in
`[0, max(0, lineCount - windowLines)]` - in every window state, and in
particular after `scrollTo`, `scrollBy`, `setWindowLines` and
`notifyOutputChanged` (and hence after every sequence of such
operations, with any screen-side changes of `lineCount`). -/
theorem currentLine_range_after_operations (w : ScreenWindow)
    (obs opObs : ScreenObs) (line amount n : Int)
    (mode : RelativeScrollMode) (fullPage : Bool) :
    currentLineInRange w obs ∧
    currentLineInRange (w.scrollTo opObs line) obs ∧
    currentLineInRange (w.scrollBy opObs mode amount fullPage) obs ∧
    currentLineInRange (w.setWindowLines n) obs ∧
    currentLineInRange (w.notifyOutputChanged opObs) obs :=
  ⟨currentLine_always_in_range _ _, currentLine_always_in_range _ _,
   currentLine_always_in_range _ _, currentLine_always_in_range _ _,
   currentLine_always_in_range _ _⟩

/-! ## Filter chain (src/filterHotSpots/Filter.cpp, RegExpFilter.cpp) -/

/-- Model of a `HotSpot` (src/filterHotSpots/HotSpot.h is not in the
snapshot; the fields are fixed by their uses in Filter.cpp and
RegExpFilter.cpp: a start/end (line, column) range and, for regex
hotspots, the captured texts). -/
structure HotSpot where
  startLine : Int
  startColumn : Int
  endLine : Int
  endColumn : Int
  capturedTexts : List String
deriving Repr, DecidableEq

/-- Model of the `Filter` hotspot containers from
src/filterHotSpots/Filter.cpp: `_hotspots` (a `QMultiHash<int, HotSpot*>`
modelled as key-value pairs) and `_hotspotList`. -/
structure FilterState where
  hotspots : List (Int × HotSpot)
  hotspotList : List HotSpot
deriving Repr, DecidableEq

/-- Model of `Filter::addHotSpot` from src/filterHotSpots/Filter.cpp:92:
appends to `_hotspotList` and inserts the spot into `_hotspots` under
every key from `startLine` to `endLine`. -/
def FilterState.addHotSpot (f : FilterState) (spot : HotSpot) : FilterState :=
  let n := (spot.endLine - spot.startLine + 1).toNat
  { f with
    hotspotList := f.hotspotList ++ [spot],
    hotspots := f.hotspots ++
      (List.range n).map (fun i : Nat => (spot.startLine + (i : Int), spot)) }

/-- Model of `Filter::hotSpotAt` from src/filterHotSpots/Filter.cpp:105:
walks the spots stored under key `line`, skipping (`continue`) a spot
that starts on this line after `column` or ends on this line before
`column`, and returns the first remaining one. -/
def FilterState.hotSpotAt (f : FilterState) (line column : Int) : Option HotSpot :=
  let hotspots := (f.hotspots.filter (fun p => p.1 = line)).map Prod.snd
  hotspots.find? (fun spot =>
    if spot.startLine = line ∧ spot.startColumn > column then false
    else if spot.endLine = line ∧ spot.endColumn < column then false
    else true)

/-- The `_hotspots` multi-hash only stores a spot under keys between its
start and end lines - the invariant `addHotSpot` establishes. -/
@[reducible] def FilterState.keysConsistent (f : FilterState) : Prop :=
  ∀ p ∈ f.hotspots, p.2.startLine ≤ p.1 ∧ p.1 ≤ p.2.endLine

theorem find?_of_all_eq {α : Type} (p : α → Bool) (a : α) :
    ∀ l : List α, l ≠ [] → (∀ x ∈ l, x = a) → p a = true →
      l.find? p = some a := by
  intro l hne hall hp
  cases l with
  | nil => exact absurd rfl hne
  | cons b t =>
      have hb : b = a := hall b (List.mem_cons_self b t)
      subst hb
      rw [List.find?_cons_of_pos _ hp]

/-- C10: `hotSpotAt(line, column)` returns a hotspot `h` only if
`h.startLine ≤ line ≤ h.endLine`, and when `line = h.startLine` only if
`column ≥ h.startColumn`, and when `line = h.endLine` only if
`column ≤ h.endColumn`; `addHotSpot` preserves the key invariant that
makes this hold after `process()`; and on a line strictly between
`startLine` and `endLine` every column is considered inside the hotspot
(membership is a per-line band, not a rectangle). -/
theorem hotSpotAt_band (f : FilterState) (line column : Int) (h : HotSpot) :
    (f.keysConsistent → f.hotSpotAt line column = some h →
      h.startLine ≤ line ∧ line ≤ h.endLine ∧
      (line = h.startLine → h.startColumn ≤ column) ∧
      (line = h.endLine → column ≤ h.endColumn)) ∧
    (f.keysConsistent → (f.addHotSpot h).keysConsistent) ∧
    (h.startLine < line → line < h.endLine →
      (FilterState.addHotSpot ⟨[], []⟩ h).hotSpotAt line column = some h) := by
  refine ⟨?_, ?_, ?_⟩
  · intro hinv hfind
    have hmem := List.mem_of_find?_eq_some hfind
    have hpred := List.find?_some hfind
    simp only [List.mem_map, List.mem_filter] at hmem
    obtain ⟨p, ⟨hp, hkey⟩, hsnd⟩ := hmem
    have hband := hinv p hp
    have hkey' : p.1 = line := by simpa using hkey
    rw [hsnd] at hband
    have hA : ¬(h.startLine = line ∧ h.startColumn > column) := by
      intro hA
      rw [if_pos hA] at hpred
      exact absurd hpred (by simp)
    have hB : ¬(h.endLine = line ∧ h.endColumn < column) := by
      intro hB
      rw [if_neg hA, if_pos hB] at hpred
      exact absurd hpred (by simp)
    exact ⟨by omega, by omega, fun _ => by omega, fun _ => by omega⟩
  · intro hinv p hp
    unfold FilterState.addHotSpot at hp
    simp only [List.mem_append, List.mem_map, List.mem_range] at hp
    rcases hp with hp | ⟨i, hi, hpi⟩
    · exact hinv p hp
    · rw [← hpi]
      show h.startLine ≤ h.startLine + (i : Int) ∧ h.startLine + (i : Int) ≤ h.endLine
      omega
  · intro h1 h2
    dsimp only [FilterState.addHotSpot, FilterState.hotSpotAt]
    simp only [List.nil_append]
    apply find?_of_all_eq
    · apply List.ne_nil_of_mem (a := h)
      simp only [List.mem_map, List.mem_filter]
      refine ⟨(line, h), ⟨?_, by simp⟩, rfl⟩
      simp only [List.mem_map, List.mem_range]
      refine ⟨(line - h.startLine).toNat, by omega, ?_⟩
      have : h.startLine + ((line - h.startLine).toNat : Int) = line := by omega
      rw [this]
    · intro x hx
      simp only [List.mem_map, List.mem_filter] at hx
      obtain ⟨p, ⟨hpmem, _⟩, hpx⟩ := hx
      simp only [List.mem_map, List.mem_range] at hpmem
      obtain ⟨i, _, hpi⟩ := hpmem
      rw [← hpx, ← hpi]
    · rw [if_neg (by omega), if_neg (by omega)]

/-- A concrete hotspot used by the witness of C10. -/
def testHotSpot : HotSpot := ⟨1, 7, 3, 2, ["match"]⟩

/-- Witness for C10: a hotspot spanning lines 1..3 is returned on the
middle line at an arbitrary column, and a lookup on its start line
respects the column bound. -/
theorem hotSpotAt_band_witness :
    ((FilterState.addHotSpot ⟨[], []⟩ testHotSpot).hotSpotAt 2 5 = some testHotSpot) ∧
    (testHotSpot.startLine ≤ 1 ∧ (1 : Int) ≤ testHotSpot.endLine ∧
      ((1 : Int) = testHotSpot.startLine → testHotSpot.startColumn ≤ 7) ∧
      ((1 : Int) = testHotSpot.endLine → (7 : Int) ≤ testHotSpot.endColumn)) :=
  ⟨(hotSpotAt_band ⟨[], []⟩ 2 5 testHotSpot).2.2 (by decide) (by decide),
   (hotSpotAt_band (FilterState.addHotSpot ⟨[], []⟩ testHotSpot) 1 7 testHotSpot).1
     (by decide) (by decide)⟩

/-! ## RegExpFilter (src/filterHotSpots/RegExpFilter.cpp) -/

/-- Model of the loop body of `Filter::getLineColumn`
(src/filterHotSpots/Filter.cpp:69).  The C++ iterates an index `i` over
`_linePositions`; here the same scan is written structurally over the
list suffix starting at `i`: `nextLine` is `_buffer->length() + 1` on the
last entry and `_linePositions->value(i + 1)` (the head of the remaining
suffix, with `QList::value`'s default 0) otherwise, and a hit returns
`(i, stringWidth(buffer.mid(linePositions[i], position - linePositions[i])))`. -/
def getLineColumnGo (buffer : List Char) (sw : List Char → Int) (position : Int) :
    Nat → List Int → Int × Int
  | _, [] => (-1, -1)
  | i, p :: rest =>
      let nextLine : Int :=
        if rest.isEmpty then (buffer.length : Int) + 1 else rest.headD 0
      if p ≤ position ∧ position < nextLine then
        (i, sw ((buffer.drop p.toNat).take (position - p).toNat))
      else getLineColumnGo buffer sw position (i + 1) rest

/-- Model of `Filter::getLineColumn` from src/filterHotSpots/Filter.cpp:69.
`Character::stringWidth` lives in `Character.h`, which is not in the
snapshot; it is taken as the parameter `sw`. -/
def getLineColumn (buffer : List Char) (linePositions : List Int)
    (sw : List Char → Int) (position : Int) : Int × Int :=
  getLineColumnGo buffer sw position 0 linePositions

/-- One match reported by the compiled pattern (`QRegExp`): the position
returned by `indexIn`, `matchedLength()`, and `capturedTexts()`. -/
structure RegExpMatch where
  pos : Nat
  len : Nat
  capturedTexts : List String
deriving Repr, DecidableEq

/-- Model of the compiled pattern `_searchText` as an oracle:
`patternEmpty` is `_searchText.isEmpty() || _searchText.pattern().isEmpty()`,
and `indexIn start` is the first match at or after `start` (`none` models
the return value -1). -/
structure RegExpOracle where
  patternEmpty : Bool
  indexIn : Nat → Option RegExpMatch

/-- A well-behaved pattern on a buffer of length `len`: a reported match
is at or after the search start and lies inside the buffer (this is how
`QRegExp::indexIn` behaves). -/
def GoodOracle (m : RegExpOracle) (len : Nat) : Prop :=
  ∀ start mt, m.indexIn start = some mt → start ≤ mt.pos ∧ mt.pos + mt.len ≤ len

/-- Model of the `while (pos >= 0)` loop of `RegExpFilter::process`
(src/filterHotSpots/RegExpFilter.cpp:54).  Each iteration consumes one
unit of fuel so the loop is a total function; `none` means the loop has
not finished within `fuel` iterations (for every well-behaved pattern the
bound `buffer.length + 2` suffices, which is the termination part of
claim C3).  The C++ `pos = -1` assignments (loop exit) are modelled by
returning the accumulated hotspot list. -/
def processLoop (m : RegExpOracle) (buffer : List Char) (linePositions : List Int)
    (sw : List Char → Int) : Nat → Nat → List HotSpot → Option (List HotSpot)
  | 0, _, _ => none
  | fuel + 1, pos, acc =>
      match m.indexIn pos with
      | none => some acc
      | some mt =>
          let sc := getLineColumn buffer linePositions sw mt.pos
          let ec := getLineColumn buffer linePositions sw (mt.pos + mt.len)
          let spot : HotSpot := ⟨sc.1, sc.2, ec.1, ec.2, mt.capturedTexts⟩
          -- pos += matchedLength(); if (matchedLength() == 0) pos = -1;
          if mt.len = 0 then some (acc ++ [spot])
          else processLoop m buffer linePositions sw fuel (mt.pos + mt.len) (acc ++ [spot])

/-- Model of `RegExpFilter::process` from
src/filterHotSpots/RegExpFilter.cpp:42: return immediately on an empty
pattern ("ignore any regular expressions which match an empty string"),
else run the scan loop from position 0. -/
def process (m : RegExpOracle) (buffer : List Char) (linePositions : List Int)
    (sw : List Char → Int) (fuel : Nat) : Option (List HotSpot) :=
  if m.patternEmpty then some []
  else processLoop m buffer linePositions sw fuel 0 []

/-- A pattern oracle behaving like `QRegExp("a*")` on the buffer "b":
the pattern itself is non-empty, and searching from position 0 or 1
yields a zero-length match at the search position. -/
def emptyMatchOracle : RegExpOracle where
  patternEmpty := false
  indexIn := fun s => if s ≤ 1 then some ⟨s, 0, [""]⟩ else none

/-- C3 counterexample: with the non-empty pattern "a*" on the buffer
"b" the first match has length zero, and `process` adds a hotspot for it
(at line 0, column 0) before terminating - the claim says a hotspot is
never added for a zero-length match. -/
theorem process_adds_hotspot_for_empty_match :
    process emptyMatchOracle ['b'] [0] (fun l => (l.length : Int)) 3 =
      some [⟨0, 0, 0, 0, [""]⟩] ∧
    some [(⟨0, 0, 0, 0, [""]⟩ : HotSpot)] ≠ some ([] : List HotSpot) := by
  constructor
  · rfl
  · decide

theorem processLoop_terminates (m : RegExpOracle) (buffer : List Char)
    (linePositions : List Int) (sw : List Char → Int) (L : Nat)
    (hgood : GoodOracle m L) :
    ∀ fuel pos acc, pos ≤ L → L + 2 - pos ≤ fuel →
      ∃ res, processLoop m buffer linePositions sw fuel pos acc = some res := by
  intro fuel
  induction fuel with
  | zero => intro pos acc hp hf; omega
  | succ fuel ih =>
      intro pos acc hp hf
      rw [processLoop]
      cases hidx : m.indexIn pos with
      | none => exact ⟨acc, rfl⟩
      | some mt =>
          dsimp only
          by_cases hlen : mt.len = 0
          · rw [if_pos hlen]; exact ⟨_, rfl⟩
          · rw [if_neg hlen]
            have hg := hgood pos mt hidx
            exact ih (mt.pos + mt.len) _ (by omega) (by omega)

/-- The hotspot the loop builds for match `mt`: coordinates derived from
the line-positions array via `getLineColumn` (hence via `stringWidth` on
the buffer prefix) at the match start and one past the match end. -/
def matchHotSpot (buffer : List Char) (linePositions : List Int)
    (sw : List Char → Int) (mt : RegExpMatch) : HotSpot :=
  ⟨(getLineColumn buffer linePositions sw mt.pos).1,
   (getLineColumn buffer linePositions sw mt.pos).2,
   (getLineColumn buffer linePositions sw (mt.pos + mt.len)).1,
   (getLineColumn buffer linePositions sw (mt.pos + mt.len)).2,
   mt.capturedTexts⟩

theorem processLoop_spots (m : RegExpOracle) (buffer : List Char)
    (linePositions : List Int) (sw : List Char → Int) :
    ∀ fuel pos acc res,
      processLoop m buffer linePositions sw fuel pos acc = some res →
      ∀ spot ∈ res, spot ∈ acc ∨
        ∃ p mt, m.indexIn p = some mt ∧
          spot = matchHotSpot buffer linePositions sw mt := by
  intro fuel
  induction fuel with
  | zero =>
      intro pos acc res h
      rw [processLoop] at h
      exact absurd h (by simp)
  | succ fuel ih =>
      intro pos acc res h spot hs
      rw [processLoop] at h
      cases hidx : m.indexIn pos with
      | none =>
          rw [hidx] at h
          obtain rfl : acc = res := by simpa using h
          exact Or.inl hs
      | some mt =>
          rw [hidx] at h
          dsimp only at h
          by_cases hlen : mt.len = 0
          · rw [if_pos hlen] at h
            obtain rfl : acc ++ [matchHotSpot buffer linePositions sw mt] = res := by
              simpa [matchHotSpot] using h
            rcases List.mem_append.mp hs with hmem | hmem
            · exact Or.inl hmem
            · refine Or.inr ⟨pos, mt, hidx, ?_⟩
              simpa using hmem
          · rw [if_neg hlen] at h
            have hrec := ih (mt.pos + mt.len)
              (acc ++ [matchHotSpot buffer linePositions sw mt]) res
              (by simpa [matchHotSpot] using h) spot hs
            rcases hrec with hmem | hout
            · rcases List.mem_append.mp hmem with hmem | hmem
              · exact Or.inl hmem
              · refine Or.inr ⟨pos, mt, hidx, ?_⟩
                simpa using hmem
            · exact Or.inr hout

/-- C3 (amended): the scan terminates for every well-behaved pattern
(within `buffer.length + 2` iterations); every hotspot `process` emits
is derived from a reported match, with its line/column range computed by
`getLineColumn` over the line-positions array via `stringWidth` on the
prefix; and a zero-length match does not loop, but a hotspot is still
added for it before the scan stops (it does not skip it). -/
theorem process_terminates_and_derives_hotspots (m : RegExpOracle)
    (buffer : List Char) (linePositions : List Int) (sw : List Char → Int)
    (hgood : GoodOracle m buffer.length) :
    (∃ res, process m buffer linePositions sw (buffer.length + 2) = some res) ∧
    (∀ fuel res, process m buffer linePositions sw fuel = some res →
      ∀ spot ∈ res, ∃ p mt, m.indexIn p = some mt ∧
        spot = matchHotSpot buffer linePositions sw mt) ∧
    (∀ mt fuel, m.indexIn 0 = some mt → mt.len = 0 → m.patternEmpty = false →
      process m buffer linePositions sw (fuel + 1) =
        some [matchHotSpot buffer linePositions sw mt]) := by
  refine ⟨?_, ?_, ?_⟩
  · unfold process
    split
    · exact ⟨[], rfl⟩
    · exact processLoop_terminates m buffer linePositions sw buffer.length hgood
        (buffer.length + 2) 0 [] (by omega) (by omega)
  · intro fuel res h spot hs
    unfold process at h
    split at h
    · obtain rfl : ([] : List HotSpot) = res := by simpa using h
      exact absurd hs (by simp)
    · rcases processLoop_spots m buffer linePositions sw fuel 0 [] res h spot hs with
        hmem | hout
      · exact absurd hmem (by simp)
      · exact hout
  · intro mt fuel hm hlen hpe
    unfold process
    rw [if_neg (by simp [hpe])]
    rw [processLoop, hm]
    dsimp only
    rw [if_pos hlen]
    simp [matchHotSpot]

/-- A pattern oracle with a single non-empty match (length 2 at
position 0) on the buffer "ab". -/
def singleMatchOracle : RegExpOracle where
  patternEmpty := false
  indexIn := fun s => if s = 0 then some ⟨0, 2, ["ab"]⟩ else none

theorem singleMatchOracle_good : GoodOracle singleMatchOracle 2 := by
  intro start mt hmt
  unfold singleMatchOracle at hmt
  dsimp only at hmt
  split at hmt
  · cases hmt
    simp_all
  · exact absurd hmt (by simp)

/-- Witness for C3 (amended): the scan over the buffer "ab" with the
single-match oracle finishes within the fuel bound. -/
theorem process_terminates_witness :
    ∃ res, process singleMatchOracle ['a', 'b'] [0]
      (fun l => (l.length : Int)) (['a', 'b'].length + 2) = some res :=
  (process_terminates_and_derives_hotspots singleMatchOracle ['a', 'b'] [0]
    (fun l => (l.length : Int)) singleMatchOracle_good).1

/-! ## HTML decoder (src/HTMLDecoder.cpp) -/

/-- Hex digit for `QColor::name`'s `#rrggbb` formatting. -/
def hexDigit (n : Nat) : Char :=
  if n < 10 then Char.ofNat (48 + n) else Char.ofNat (87 + n)

/-- Two-digit hex byte for `QColor::name`. -/
def hexByte (n : Nat) : String :=
  String.mk [hexDigit (n / 16 % 16), hexDigit (n % 16)]

/-- Model of `QColor::name()`: the `#rrggbb` form (an invalid color
formats as black). -/
def QColor.name : QColor → String
  | .invalid => "#000000"
  | .rgb r g b => "#" ++ hexByte (r.toNat % 256) ++ hexByte (g.toNat % 256)
      ++ hexByte (b.toNat % 256)

/-- Model of the `HTMLDecoder` state from src/HTMLDecoder.cpp:35:
`_colorTable` (possibly null), `_innerSpanOpen`, `_lastRendition`,
`_lastForeColor`, `_lastBackColor`. -/
structure HTMLDecoderState where
  colorTable : Option (Nat → ColorEntry)
  innerSpanOpen : Bool
  lastRendition : Nat
  lastForeColor : CharacterColor
  lastBackColor : CharacterColor

/-- Model of `HTMLDecoder::openSpan` from src/HTMLDecoder.cpp:171. -/
def openSpan (text : String) (style : String) : String :=
  text ++ "<span style=\"" ++ style ++ "\">"

/-- Model of `HTMLDecoder::closeSpan` from src/HTMLDecoder.cpp:176. -/
def closeSpan (text : String) : String :=
  text ++ "</span>"

/-- The escape branch of `HTMLDecoder::decodeLine`
(src/HTMLDecoder.cpp:142-151), factored out: `<`, `>` and `&` become
entities, every other code point is emitted as itself. -/
def escapeHtmlChar (c : Nat) : String :=
  if c = 60 then "&lt;"
  else if c = 62 then "&gt;"
  else if c = 38 then "&amp;"
  else String.mk [Char.ofNat c]

/-- The appearance-change block of `HTMLDecoder::decodeLine`
(src/HTMLDecoder.cpp:92-125), factored out: when the cell's rendition or
colors differ from the previous cell's, close any open inner span,
remember the new attributes, build the style string (when a color table
is set) and open a new inner span. -/
def spanUpdate (st : HTMLDecoderState) (text : String) (ch : Character) :
    HTMLDecoderState × String :=
  if ch.rendition ≠ st.lastRendition ∨ ch.foregroundColor ≠ st.lastForeColor ∨
     ch.backgroundColor ≠ st.lastBackColor then
    let text := if st.innerSpanOpen then closeSpan text else text
    let st := { st with innerSpanOpen := false,
                        lastRendition := ch.rendition,
                        lastForeColor := ch.foregroundColor,
                        lastBackColor := ch.backgroundColor }
    let style :=
      match st.colorTable with
      | some table =>
          let style := if st.lastRendition &&& RE_BOLD ≠ 0 then "font-weight:bold;" else ""
          let style := style ++
            (if st.lastRendition &&& RE_UNDERLINE ≠ 0 then "font-decoration:underline;" else "")
          style ++ "color:" ++ (st.lastForeColor.color table).name ++ ";"
            ++ "background-color:" ++ (st.lastBackColor.color table).name ++ ";"
      | none => ""
    ({ st with innerSpanOpen := true }, openSpan text style)
  else (st, text)

/-- One iteration of the cell loop of `HTMLDecoder::decodeLine`: the
appearance check, the whitespace counter, and the character emission
(`&#160;` once the running space count reaches 2; extended cells emit
their interned sequence via the lookup; others are escaped). -/
def decodeLineStep (extLookup : Nat → Option (List Char))
    (acc : HTMLDecoderState × String × Nat) (ch : Character) :
    HTMLDecoderState × String × Nat :=
  let (st, text, spaceCount) := acc
  let (st, text) := spanUpdate st text ch
  -- handle whitespace
  let spaceCount := if ch.isSpace then spaceCount + 1 else 0
  -- output current character
  let text :=
    if spaceCount < 2 then
      if ch.rendition &&& RE_EXTENDED_CHAR ≠ 0 then
        match extLookup ch.character with
        | some chars => text ++ String.mk chars
        | none => text
      else text ++ escapeHtmlChar ch.character
    else text ++ "&#160;"
  (st, text, spaceCount)

/-- Model of `HTMLDecoder::decodeLine` from src/HTMLDecoder.cpp:82.
`ExtendedCharTable::instance.lookupExtendedChar` is not in the snapshot
and is taken as the parameter `extLookup`.  Returns the updated decoder
state and the text appended to the output stream for this row. -/
def decodeLine (extLookup : Nat → Option (List Char))
    (st : HTMLDecoderState) (characters : List Character) :
    HTMLDecoderState × String :=
  let folded := characters.foldl (decodeLineStep extLookup) (st, "", 0)
  let st := folded.1
  let text := folded.2.1
  -- close any remaining open inner spans
  let stText :=
    if st.innerSpanOpen then ({ st with innerSpanOpen := false }, closeSpan text)
    else (st, text)
  -- start new line
  (stText.1, stText.2 ++ "<br>")

/-! Specification-side restatement of the row emission for claim C9:
a space cell whose predecessor cell is also a space emits `&#160;`
(equivalently, within each maximal run of `k ≥ 2` spaces the first space
is literal and the remaining `k - 1` are `&#160;`); every other cell is
emitted with `<`, `>`, `&` escaped; the row output ends with `<br>`.
The span maintenance is the decoder's own. -/

/-- Spec-side per-row recursion, threading whether the previous cell was
a space. -/
def specRowGo (st : HTMLDecoderState) (prevIsSpace : Bool) :
    List Character → HTMLDecoderState × String
  | [] => (st, "")
  | ch :: rest =>
      let sp := spanUpdate st "" ch
      let cellText :=
        if ch.isSpace ∧ prevIsSpace then "&#160;" else escapeHtmlChar ch.character
      let tail := specRowGo sp.1 ch.isSpace rest
      (tail.1, sp.2 ++ (cellText ++ tail.2))

/-- Spec-side row output: the per-cell emissions, the final span
closure, then `<br>`. -/
def specRow (st : HTMLDecoderState) (row : List Character) :
    HTMLDecoderState × String :=
  let body := specRowGo st false row
  let closed :=
    if body.1.innerSpanOpen then ({ body.1 with innerSpanOpen := false }, body.2 ++ "</span>")
    else (body.1, body.2)
  (closed.1, closed.2 ++ "<br>")

theorem spanUpdate_append (st : HTMLDecoderState) (text : String) (ch : Character) :
    spanUpdate st text ch = ((spanUpdate st "" ch).1, text ++ (spanUpdate st "" ch).2) := by
  unfold spanUpdate
  split
  · by_cases hopen : st.innerSpanOpen <;>
      simp [hopen, openSpan, closeSpan, String.append_assoc, String.empty_append]
  · simp [String.append_empty]

theorem decodeLine_foldl_spec (extLookup : Nat → Option (List Char)) :
    ∀ (row : List Character) (st : HTMLDecoderState) (text : String)
      (sc : Nat) (prev : Bool),
      (∀ ch ∈ row, ch.rendition &&& RE_EXTENDED_CHAR = 0) →
      (1 ≤ sc ↔ prev = true) →
      row.foldl (decodeLineStep extLookup) (st, text, sc) =
        ((specRowGo st prev row).1, text ++ (specRowGo st prev row).2,
          (row.foldl (decodeLineStep extLookup) (st, text, sc)).2.2) := by
  intro row
  induction row with
  | nil =>
      intro st text sc prev hext hinv
      simp [specRowGo, String.append_empty]
  | cons ch rest ih =>
      intro st text sc prev hext hinv
      have hch : ch.rendition &&& RE_EXTENDED_CHAR = 0 :=
        hext ch (List.mem_cons_self ch rest)
      have hrest : ∀ c ∈ rest, c.rendition &&& RE_EXTENDED_CHAR = 0 :=
        fun c hc => hext c (List.mem_cons_of_mem ch hc)
      have hstep : decodeLineStep extLookup (st, text, sc) ch =
          ((spanUpdate st "" ch).1,
            text ++ ((spanUpdate st "" ch).2 ++
              (if ch.isSpace ∧ prev then "&#160;" else escapeHtmlChar ch.character)),
            if ch.isSpace then sc + 1 else 0) := by
        dsimp only [decodeLineStep]
        rw [spanUpdate_append]
        by_cases hsp : ch.isSpace <;> by_cases hprev : prev
        · have h2 : ¬ (sc + 1 < 2) := by
            have := hinv.mpr hprev
            omega
          simp [hsp, hprev, h2, String.append_assoc]
        · have hsc : sc = 0 := by
            by_contra hc
            exact hprev (hinv.mp (by omega))
          subst hsc
          simp [hsp, hprev, hch, String.append_assoc]
        · simp [hsp, hch, String.append_assoc]
        · simp [hsp, hch, String.append_assoc]
      have hinv2 : (1 ≤ (if ch.isSpace then sc + 1 else 0) ↔ ch.isSpace = true) := by
        by_cases hsp : ch.isSpace <;> simp [hsp]
      rw [List.foldl_cons, hstep, ih _ _ _ ch.isSpace hrest hinv2, specRowGo]
      simp [String.append_assoc]

/-- C9 (amended): for a row without extended-character cells, the HTML
decoder's row output equals the spec-side emission - every `<` cell
becomes `&lt;`, every `>` cell `&gt;`, every `&` cell `&amp;`; within
each maximal run of consecutive space cells the first space is emitted
literally and each later one as `&#160;` (a space is replaced exactly
when its predecessor cell is a space); and (for every row, extended
cells included) the row output ends with `<br>`. -/
theorem decodeLine_matches_spec (extLookup : Nat → Option (List Char))
    (st : HTMLDecoderState) (row anyRow : List Character)
    (hext : ∀ ch ∈ row, ch.rendition &&& RE_EXTENDED_CHAR = 0) :
    decodeLine extLookup st row = specRow st row ∧
    ∃ t, (decodeLine extLookup st anyRow).2 = t ++ "<br>" := by
  constructor
  · unfold decodeLine specRow
    rw [decodeLine_foldl_spec extLookup row st "" 0 false hext (by simp)]
    simp only [String.empty_append]
    split <;> simp [closeSpan]
  · exact ⟨_, rfl⟩

/-- An extended-character table mapping key 5 to the one-element cluster
containing the open-angle-bracket character. -/
def testExtLookup : Nat → Option (List Char) :=
  fun k => if k = 5 then some ['<'] else none

/-- A fresh decoder state: no color table, no open inner span, default
last attributes (the constructor state of src/HTMLDecoder.cpp:35). -/
def testDecoderState : HTMLDecoderState :=
  ⟨none, false, DEFAULT_RENDITION, CharacterColor.undefined, CharacterColor.undefined⟩

/-- A cell carrying the extended-char flag with interned key 5. -/
def testExtCell : Character :=
  ⟨5, CharacterColor.undefined, CharacterColor.undefined, RE_EXTENDED_CHAR, true⟩

/-- C9 counterexample: a row consisting of one extended-character cell
whose interned cluster is the single character `<` is emitted verbatim
through `QString::fromUcs4` - the output contains a raw `<` for the cell
and no entity at all (no `&` occurs), so "the emitted text escapes every
`<` as `&lt;`" fails on this row. -/
theorem decodeLine_extended_cell_unescaped :
    (decodeLine testExtLookup testDecoderState [testExtCell]).2 =
      "<span style=\"\"><</span><br>" ∧
    ((decodeLine testExtLookup testDecoderState [testExtCell]).2.toList.contains '&') = false ∧
    testExtLookup testExtCell.character = some ['<'] := by
  refine ⟨rfl, ?_, rfl⟩
  decide

/-- A row used by the C9 witness: `a`, space, space, `<`, `&`. -/
def testRow : List Character :=
  [⟨97, CharacterColor.undefined, CharacterColor.undefined, DEFAULT_RENDITION, true⟩,
   ⟨32, CharacterColor.undefined, CharacterColor.undefined, DEFAULT_RENDITION, true⟩,
   ⟨32, CharacterColor.undefined, CharacterColor.undefined, DEFAULT_RENDITION, true⟩,
   ⟨60, CharacterColor.undefined, CharacterColor.undefined, DEFAULT_RENDITION, true⟩,
   ⟨38, CharacterColor.undefined, CharacterColor.undefined, DEFAULT_RENDITION, true⟩]

/-- Witness for C9 (amended): on a concrete extended-char-free row the
decoder output equals the spec-side emission, and every row's output
ends with `<br>`. -/
theorem decodeLine_matches_spec_witness :
    decodeLine testExtLookup testDecoderState testRow =
      specRow testDecoderState testRow ∧
    ∃ t, (decodeLine testExtLookup testDecoderState [testExtCell]).2 = t ++ "<br>" :=
  decodeLine_matches_spec testExtLookup testDecoderState testRow [testExtCell]
    (by decide)

/-! ## Generic list-update lemmas used for the screen image folds -/

theorem getD_set_if {α : Type} (l : List α) (i j : Nat) (a d : α) :
    (l.set i a).getD j d = if i = j ∧ j < l.length then a else l.getD j d := by
  simp only [List.getD_eq_getElem?_getD, List.getElem?_set]
  split
  · rename_i h
    subst h
    by_cases hj : i < l.length
    · simp [hj, List.getElem?_eq_getElem hj]
    · simp [hj, List.getElem?_eq_none (by omega : l.length ≤ i)]
  · rename_i h
    rw [if_neg (fun hh => h hh.1)]

theorem foldl_pair_indep {α β γ : Type} (f : α → γ → α) (g : β → γ → β)
    (l : List γ) (a : α) (b : β) :
    l.foldl (fun p c => (f p.1 c, g p.2 c)) (a, b) = (l.foldl f a, l.foldl g b) := by
  induction l generalizing a b with
  | nil => rfl
  | cons c t ih => simp [List.foldl_cons, ih]

theorem foldl_set_length {α : Type} (idx : Nat → Nat) (v : List α → Nat → α) :
    ∀ (n : Nat) (A : List α),
      ((List.range n).foldl (fun acc i => acc.set (idx i) (v acc i)) A).length
        = A.length := by
  intro n
  induction n with
  | zero => intro A; rfl
  | succ m ih =>
      intro A
      rw [List.range_succ, List.foldl_append]
      simp [ih]

theorem foldl_set_affine {α : Type} (d : α) (base : Nat) (f : Nat → α) :
    ∀ (n : Nat) (A : List α) (j : Nat),
      ((List.range n).foldl (fun acc i => acc.set (base + i) (f i)) A).getD j d =
        if base ≤ j ∧ j < base + n ∧ j < A.length then f (j - base) else A.getD j d := by
  intro n
  induction n with
  | zero =>
      intro A j
      simp only [List.range_zero, List.foldl_nil]
      rw [if_neg (by omega)]
  | succ n ih =>
      intro A j
      rw [List.range_succ, List.foldl_append]
      simp only [List.foldl_cons, List.foldl_nil]
      rw [getD_set_if]
      have hlen : ((List.range n).foldl (fun acc i => acc.set (base + i) (f i)) A).length
          = A.length := foldl_set_length (fun i => base + i) (fun _ i => f i) n A
      rw [hlen, ih]
      by_cases h1 : base + n = j
      · subst h1
        by_cases h2 : base + n < A.length
        · have hn : base + n - base = n := by omega
          rw [if_pos ⟨rfl, h2⟩, if_pos ⟨by omega, by omega, h2⟩, hn]
        · rw [if_neg (fun hh => h2 hh.2), if_neg (by omega), if_neg (by omega)]
      · by_cases h3 : base ≤ j ∧ j < base + n ∧ j < A.length
        · rw [if_neg (fun hh => h1 hh.1), if_pos h3, if_pos ⟨h3.1, by omega, h3.2.2⟩]
        · rw [if_neg (fun hh => h1 hh.1), if_neg h3, if_neg (by omega)]

theorem foldl_set_affine_dep {α : Type} (d : α) (base : Nat) (F : Nat → α → α) :
    ∀ (n : Nat) (A : List α) (j : Nat),
      ((List.range n).foldl
          (fun acc i => acc.set (base + i) (F i (acc.getD (base + i) d))) A).getD j d =
        if base ≤ j ∧ j < base + n ∧ j < A.length
        then F (j - base) (A.getD j d) else A.getD j d := by
  intro n
  induction n with
  | zero =>
      intro A j
      simp only [List.range_zero, List.foldl_nil]
      rw [if_neg (by omega)]
  | succ n ih =>
      intro A j
      rw [List.range_succ, List.foldl_append]
      simp only [List.foldl_cons, List.foldl_nil]
      have hlen : ((List.range n).foldl
            (fun acc i => acc.set (base + i) (F i (acc.getD (base + i) d))) A).length
          = A.length :=
        foldl_set_length (fun i => base + i) (fun acc i => F i (acc.getD (base + i) d)) n A
      have hread : ((List.range n).foldl
            (fun acc i => acc.set (base + i) (F i (acc.getD (base + i) d))) A).getD
            (base + n) d = A.getD (base + n) d := by
        rw [ih, if_neg (by omega)]
      rw [getD_set_if, hread, hlen, ih]
      by_cases h1 : base + n = j
      · subst h1
        by_cases h2 : base + n < A.length
        · have hn : base + n - base = n := by omega
          rw [if_pos ⟨rfl, h2⟩, if_pos ⟨by omega, by omega, h2⟩, hn]
        · rw [if_neg (fun hh => h2 hh.2), if_neg (by omega), if_neg (by omega)]
      · by_cases h3 : base ≤ j ∧ j < base + n ∧ j < A.length
        · rw [if_neg (fun hh => h1 hh.1), if_pos h3, if_pos ⟨h3.1, by omega, h3.2.2⟩]
        · rw [if_neg (fun hh => h1 hh.1), if_neg h3, if_neg (by omega)]

/-! ## Screen scrolling (src/Screen.cpp) -/

/-- Model of `QVector<Character>::resize`: shrinks by truncation or
grows with value-initialized `Character()` cells. -/
def vectorResize (line : List Character) (n : Nat) : List Character :=
  if n ≤ line.length then line.take n
  else line ++ List.replicate (n - line.length) characterDefault

/-- Model of `std::fill(line.begin() + startCol, line.begin() + (endCol + 1), ch)`
(src/Screen.cpp:1116): positions `startCol..endCol` get `ch`, the rest of
the line is kept. -/
def fillRange (line : List Character) (startCol endCol : Nat) (ch : Character) :
    List Character :=
  (List.range line.length).map
    (fun i => if startCol ≤ i ∧ i ≤ endCol then ch else line.getD i DefaultChar)

namespace Screen

/-- Read a whole screen row (rows beyond the array read as empty). -/
def getRow (s : Screen) (y : Int) : List Character :=
  s.screenLines.getD y.toNat []

/-- Read a row's line properties. -/
def getProp (s : Screen) (y : Int) : Nat :=
  s.lineProperties.getD y.toNat 0

/-- Model of the padded cell read `_screenLines[...].value(x, Screen::DefaultChar)`
used by `Screen::copyFromScreen` (src/Screen.cpp:638): a line shorter
than `columns` is logically padded with the default cell. -/
def getChar (s : Screen) (x y : Int) : Character :=
  (s.getRow y).getD x.toNat DefaultChar

/-- Model of `Screen::hasScroll` from src/Screen.cpp:1685. -/
def hasScroll (s : Screen) : Bool := s.history.hasScroll

/-- Model of `Screen::clearImage` from src/Screen.cpp:1081.  The C++
`int` divisions and modulos are translated with `Int` `/` and `%`, which
agree with C++ on the non-negative operands produced by every in-range
call (`0 ≤ loca ≤ loce`, `columns ≥ 1`). -/
def clearImage (s : Screen) (loca loce : Int) (c : Nat) : Screen :=
  let scrTL := s.loc 0 s.history.getLines
  -- clear entire selection if it overlaps the region to be moved
  let s : Screen := if s.selBottomRight > loca + scrTL ∧ s.selTopLeft < loce + scrTL
           then s.clearSelection else s
  let topLine := loca / s.columns
  let bottomLine := loce / s.columns
  let clearCh : Character :=
    ⟨c, s.currentForeground, s.currentBackground, DEFAULT_RENDITION, false⟩
  -- if the character being used to clear the area is the same as the
  -- default character, the affected lines can simply be shrunk
  let isDefaultCh := clearCh = DefaultChar
  let rows := (bottomLine - topLine + 1).toNat
  let pair := (List.range rows).foldl
    (fun (pair : List (List Character) × List Nat) (i : Nat) =>
      let y : Int := topLine + (i : Int)
      let endCol : Int := if y = bottomLine then loce % s.columns else s.columns - 1
      let startCol : Int := if y = topLine then loca % s.columns else 0
      let line := pair.1.getD y.toNat []
      let line :=
        if isDefaultCh ∧ endCol = s.columns - 1 then
          vectorResize line startCol.toNat
        else
          let line := if line.length < (endCol + 1).toNat
                      then vectorResize line (endCol + 1).toNat else line
          if startCol ≤ endCol then fillRange line startCol.toNat endCol.toNat clearCh
          else line
      (pair.1.set y.toNat line, pair.2.set y.toNat 0))
    (s.screenLines, s.lineProperties)
  { s with screenLines := pair.1, lineProperties := pair.2 }

/-- Shared tail of the selection adjustments in `Screen::moveImage` and
`Screen::addHistLine` (src/Screen.cpp:1177-1183 and 1650-1656): clear
the selection when its bottom-right fell below zero, otherwise clamp its
top-left at zero. -/
def selClampClear (s : Screen) : Screen :=
  if s.selBottomRight < 0 then s.clearSelection
  else if s.selTopLeft < 0 then { s with selTopLeft := 0 } else s

/-- Shared tail: restore `_selBegin` from whichever anchor it equalled
before the adjustment (src/Screen.cpp:1185-1189 and 1658-1662). -/
def selRestoreBegin (s : Screen) (beginIsTL : Bool) : Screen :=
  if beginIsTL then { s with selBegin := s.selTopLeft }
  else { s with selBegin := s.selBottomRight }

/-- The top-left selection step of `Screen::moveImage`
(src/Screen.cpp:1165-1169). -/
def moveImageSelTL (s : Screen) (srca srce desta deste diff : Int) : Screen :=
  if s.selTopLeft ≥ srca ∧ s.selTopLeft ≤ srce then
    { s with selTopLeft := s.selTopLeft + diff }
  else if s.selTopLeft ≥ desta ∧ s.selTopLeft ≤ deste then
    { s with selBottomRight := -1 }
  else s

/-- The bottom-right selection step of `Screen::moveImage`
(src/Screen.cpp:1171-1175). -/
def moveImageSelBR (s : Screen) (srca srce desta deste diff : Int) : Screen :=
  if s.selBottomRight ≥ srca ∧ s.selBottomRight ≤ srce then
    { s with selBottomRight := s.selBottomRight + diff }
  else if s.selBottomRight ≥ desta ∧ s.selBottomRight ≤ deste then
    { s with selBottomRight := -1 }
  else s

/-- The `_lastPos` adjustment of `Screen::moveImage`
(src/Screen.cpp:1147-1153); `lines` is recomputed from the arguments
exactly as the function head does. -/
def moveImageLastPos (s : Screen) (dest sourceBegin sourceEnd : Int) : Screen :=
  let lines := (sourceEnd - sourceBegin) / s.columns
  if s.lastPos ≠ -1 then
    let diff := dest - sourceBegin
    let lastPos := s.lastPos + diff
    if lastPos < 0 ∨ lastPos ≥ lines * s.columns then { s with lastPos := -1 }
    else { s with lastPos := lastPos }
  else s

/-- The `_lastPos` and selection adjustments that form the tail of
`Screen::moveImage` (src/Screen.cpp:1147-1190), taken over the state
after the row copy. -/
def moveImageAdjust (s : Screen) (dest sourceBegin sourceEnd : Int) : Screen :=
  let s : Screen := moveImageLastPos s dest sourceBegin sourceEnd
  -- adjust selection to follow scroll
  if s.selBegin ≠ -1 then
    let beginIsTL := s.selBegin = s.selTopLeft
    let diff := dest - sourceBegin
    let scrTL := s.loc 0 s.history.getLines
    let srca := sourceBegin + scrTL
    let srce := sourceEnd + scrTL
    let desta := srca + diff
    let deste := srce + diff
    selRestoreBegin
      (selClampClear (moveImageSelBR (moveImageSelTL s srca srce desta deste diff)
        srca srce desta deste diff))
      beginIsTL
  else s

/-- Model of `Screen::moveImage` from src/Screen.cpp:1122.  The C++
copies row by row, choosing the iteration order so that each source row
is read before it can be overwritten (memmove semantics); the model
therefore copies every row from the pre-call state.  The `_lastPos` and
selection adjustments that follow the copy are `moveImageAdjust`. -/
def moveImage (s : Screen) (dest sourceBegin sourceEnd : Int) : Screen :=
  let lines := (sourceEnd - sourceBegin) / s.columns
  let destY := dest / s.columns
  let srcY := sourceBegin / s.columns
  -- move screen image and line properties (rows destY..destY+lines)
  let n := (lines + 1).toNat
  let pair := (List.range n).foldl
    (fun (pair : List (List Character) × List Nat) (i : Nat) =>
      (pair.1.set (destY + (i : Int)).toNat (s.screenLines.getD (srcY + (i : Int)).toNat []),
       pair.2.set (destY + (i : Int)).toNat (s.lineProperties.getD (srcY + (i : Int)).toNat 0)))
    (s.screenLines, s.lineProperties)
  moveImageAdjust { s with screenLines := pair.1, lineProperties := pair.2 }
    dest sourceBegin sourceEnd

/-- The reference-point shift at the head of `Screen::addHistLine`\'s
selection adjustment (src/Screen.cpp:1631-1636). -/
def addHistLineSelShiftRef (s : Screen) (newHistLines oldHistLines : Int) : Screen :=
  if newHistLines > oldHistLines then
    if s.selBegin ≠ -1 then
      { s with selTopLeft := s.selTopLeft + s.columns,
               selBottomRight := s.selBottomRight + s.columns }
    else s
  else s

/-- The top-left shift of `Screen::addHistLine`\'s "scroll selection in
history up" block (src/Screen.cpp:1642-1644). -/
def addHistLineSelShiftTL (s : Screen) (topBR : Int) : Screen :=
  if s.selTopLeft < topBR then { s with selTopLeft := s.selTopLeft - s.columns }
  else s

/-- The bottom-right shift of the same block (src/Screen.cpp:1646-1648). -/
def addHistLineSelShiftBR (s : Screen) (topBR : Int) : Screen :=
  if s.selBottomRight < topBR then
    { s with selBottomRight := s.selBottomRight - s.columns }
  else s

/-- The selection adjustment that forms the tail of `Screen::addHistLine`
(src/Screen.cpp:1628-1663), taken over the state after the history
append, with the line count from before the append. -/
def addHistLineSel (s : Screen) (oldHistLines : Int) : Screen :=
  let newHistLines := s.history.getLines
  let beginIsTL := s.selBegin = s.selTopLeft
  -- adjust selection for the new point of reference
  let s : Screen := addHistLineSelShiftRef s newHistLines oldHistLines
  if s.selBegin ≠ -1 then
    -- scroll selection in history up
    let topBR := s.loc 0 (1 + newHistLines)
    selRestoreBegin
      (selClampClear (addHistLineSelShiftBR (addHistLineSelShiftTL s topBR) topBR))
      beginIsTL
  else s

/-- Model of `Screen::addHistLine` from src/Screen.cpp:1605.  The
`addCellsVector`/`addLine` pair is `History.addLine`; the selection
adjustment is `addHistLineSel`. -/
def addHistLine (s : Screen) : Screen :=
  let oldHistLines := s.history.getLines
  let s : Screen :=
    if s.hasScroll then
      let hist := s.history.addLine (s.screenLines.getD 0 [])
        ((s.lineProperties.getD 0 0) &&& LINE_WRAPPED != 0)
      let newHistLines := hist.getLines
      let s : Screen := { s with history := hist }
      -- if the history is full, increment the count of dropped lines
      if newHistLines = oldHistLines then
        { s with droppedLines := s.droppedLines + 1 }
      else s
    else s
  addHistLineSel s oldHistLines

/-- Model of `Screen::scrollUp(int, int)` from src/Screen.cpp:994. -/
def scrollUpFrom (s : Screen) (fromLine n : Int) : Screen :=
  if n ≤ 0 then s
  else if fromLine > s.bottomMargin then s
  else
    let n := if fromLine + n > s.bottomMargin then s.bottomMargin + 1 - fromLine else n
    let s : Screen := { s with
      scrolledLines := s.scrolledLines - n,
      lastScrolledRegion := (0, s.topMargin, s.columns - 1, s.bottomMargin - s.topMargin) }
    let s : Screen := s.moveImage (s.loc 0 fromLine) (s.loc 0 (fromLine + n))
      (s.loc s.columns s.bottomMargin)
    s.clearImage (s.loc 0 (s.bottomMargin - n + 1)) (s.loc (s.columns - 1) s.bottomMargin) 32

/-- Model of `Screen::scrollUp(int)` from src/Screen.cpp:978. -/
def scrollUp (s : Screen) (n : Int) : Screen :=
  let n := if n < 1 then 1 else n
  let s : Screen := if s.topMargin = 0 then s.addHistLine else s
  s.scrollUpFrom s.topMargin n

/-- Model of `Screen::scrollDown(int, int)` from src/Screen.cpp:1022.
Note that `_scrolledLines += n` happens before the early returns and
before the clamping. -/
def scrollDownFrom (s : Screen) (fromLine n : Int) : Screen :=
  let s : Screen := { s with scrolledLines := s.scrolledLines + n }
  if n ≤ 0 then s
  else if fromLine > s.bottomMargin then s
  else
    let n := if fromLine + n > s.bottomMargin then s.bottomMargin - fromLine else n
    let s : Screen := s.moveImage (s.loc 0 (fromLine + n)) (s.loc 0 fromLine)
      (s.loc (s.columns - 1) (s.bottomMargin - n))
    s.clearImage (s.loc 0 fromLine) (s.loc (s.columns - 1) (fromLine + n - 1)) 32

/-- Model of `Screen::index` from src/Screen.cpp:191. -/
def index (s : Screen) : Screen :=
  if s.cuY = s.bottomMargin then s.scrollUp 1
  else if s.cuY < s.lines - 1 then { s with cuY := s.cuY + 1 }
  else s

/-- The line `addHistLine` retires: the top screen row with its wrapped
flag (statement-side shorthand for claim C1). -/
def retiredLine (s : Screen) : HistLine :=
  ⟨s.screenLines.getD 0 [], (s.lineProperties.getD 0 0) &&& LINE_WRAPPED != 0⟩

end Screen

/-- The screen fields that the selection and `_lastPos` adjustments
leave untouched. -/
def sameCore (t s : Screen) : Prop :=
  t.history = s.history ∧ t.screenLines = s.screenLines ∧
  t.lineProperties = s.lineProperties ∧ t.scrolledLines = s.scrolledLines ∧
  t.columns = s.columns ∧ t.lines = s.lines ∧ t.topMargin = s.topMargin ∧
  t.bottomMargin = s.bottomMargin ∧ t.currentForeground = s.currentForeground ∧
  t.currentBackground = s.currentBackground ∧ t.droppedLines = s.droppedLines

theorem sameCore_trans {a b c : Screen} (h1 : sameCore a b) (h2 : sameCore b c) :
    sameCore a c := by
  obtain ⟨e1, e2, e3, e4, e5, e6, e7, e8, e9, e10, e11⟩ := h1
  obtain ⟨f1, f2, f3, f4, f5, f6, f7, f8, f9, f10, f11⟩ := h2
  exact ⟨e1.trans f1, e2.trans f2, e3.trans f3, e4.trans f4, e5.trans f5,
    e6.trans f6, e7.trans f7, e8.trans f8, e9.trans f9, e10.trans f10, e11.trans f11⟩

theorem selClampClear_core (s : Screen) : sameCore (s.selClampClear) s := by
  unfold Screen.selClampClear Screen.clearSelection sameCore
  repeat' split
  all_goals exact ⟨rfl, rfl, rfl, rfl, rfl, rfl, rfl, rfl, rfl, rfl, rfl⟩

theorem selRestoreBegin_core (s : Screen) (b : Bool) :
    sameCore (s.selRestoreBegin b) s := by
  unfold Screen.selRestoreBegin sameCore
  repeat' split
  all_goals exact ⟨rfl, rfl, rfl, rfl, rfl, rfl, rfl, rfl, rfl, rfl, rfl⟩

theorem moveImageSelTL_core (s : Screen) (srca srce desta deste diff : Int) :
    sameCore (s.moveImageSelTL srca srce desta deste diff) s := by
  unfold Screen.moveImageSelTL sameCore
  repeat' split
  all_goals exact ⟨rfl, rfl, rfl, rfl, rfl, rfl, rfl, rfl, rfl, rfl, rfl⟩

theorem moveImageSelBR_core (s : Screen) (srca srce desta deste diff : Int) :
    sameCore (s.moveImageSelBR srca srce desta deste diff) s := by
  unfold Screen.moveImageSelBR sameCore
  repeat' split
  all_goals exact ⟨rfl, rfl, rfl, rfl, rfl, rfl, rfl, rfl, rfl, rfl, rfl⟩

theorem moveImageLastPos_core (s : Screen) (dest sourceBegin sourceEnd : Int) :
    sameCore (s.moveImageLastPos dest sourceBegin sourceEnd) s := by
  unfold Screen.moveImageLastPos sameCore
  dsimp only
  repeat' split
  all_goals exact ⟨rfl, rfl, rfl, rfl, rfl, rfl, rfl, rfl, rfl, rfl, rfl⟩

theorem addHistLineSelShiftRef_core (s : Screen) (newHistLines oldHistLines : Int) :
    sameCore (s.addHistLineSelShiftRef newHistLines oldHistLines) s := by
  unfold Screen.addHistLineSelShiftRef sameCore
  repeat' split
  all_goals exact ⟨rfl, rfl, rfl, rfl, rfl, rfl, rfl, rfl, rfl, rfl, rfl⟩

theorem addHistLineSelShiftTL_core (s : Screen) (topBR : Int) :
    sameCore (s.addHistLineSelShiftTL topBR) s := by
  unfold Screen.addHistLineSelShiftTL sameCore
  repeat' split
  all_goals exact ⟨rfl, rfl, rfl, rfl, rfl, rfl, rfl, rfl, rfl, rfl, rfl⟩

theorem addHistLineSelShiftBR_core (s : Screen) (topBR : Int) :
    sameCore (s.addHistLineSelShiftBR topBR) s := by
  unfold Screen.addHistLineSelShiftBR sameCore
  repeat' split
  all_goals exact ⟨rfl, rfl, rfl, rfl, rfl, rfl, rfl, rfl, rfl, rfl, rfl⟩

theorem moveImageAdjust_core (s : Screen) (dest sourceBegin sourceEnd : Int) :
    sameCore (s.moveImageAdjust dest sourceBegin sourceEnd) s := by
  unfold Screen.moveImageAdjust
  dsimp only
  split
  · exact sameCore_trans (selRestoreBegin_core _ _)
      (sameCore_trans (selClampClear_core _)
        (sameCore_trans (moveImageSelBR_core _ _ _ _ _ _)
          (sameCore_trans (moveImageSelTL_core _ _ _ _ _ _)
            (moveImageLastPos_core _ _ _ _))))
  · exact moveImageLastPos_core _ _ _ _

theorem addHistLineSel_core (s : Screen) (oldHistLines : Int) :
    sameCore (s.addHistLineSel oldHistLines) s := by
  unfold Screen.addHistLineSel
  dsimp only
  split
  · exact sameCore_trans (selRestoreBegin_core _ _)
      (sameCore_trans (selClampClear_core _)
        (sameCore_trans (addHistLineSelShiftBR_core _ _)
          (sameCore_trans (addHistLineSelShiftTL_core _ _)
            (addHistLineSelShiftRef_core _ _ _))))
  · exact addHistLineSelShiftRef_core _ _ _

theorem moveImage_history (s : Screen) (dest sourceBegin sourceEnd : Int) :
    (s.moveImage dest sourceBegin sourceEnd).history = s.history := by
  unfold Screen.moveImage
  dsimp only
  exact (moveImageAdjust_core _ _ _ _).1

theorem clearImage_history (s : Screen) (loca loce : Int) (c : Nat) :
    (s.clearImage loca loce c).history = s.history := by
  unfold Screen.clearImage Screen.clearSelection
  dsimp only
  split
  all_goals rfl

theorem scrollUpFrom_history (s : Screen) (fromLine n : Int) :
    (s.scrollUpFrom fromLine n).history = s.history := by
  unfold Screen.scrollUpFrom
  dsimp only
  split
  · rfl
  split
  · rfl
  rw [clearImage_history, moveImage_history]

theorem addHistLine_history (s : Screen) :
    (s.addHistLine).history =
      s.history.addLine (s.screenLines.getD 0 [])
        ((s.lineProperties.getD 0 0) &&& LINE_WRAPPED != 0) := by
  unfold Screen.addHistLine
  dsimp only
  rw [(addHistLineSel_core _ _).1]
  unfold Screen.hasScroll History.hasScroll
  by_cases hs : s.history.hasScrollFlag
  · rw [if_pos hs]
    split <;> rfl
  · rw [if_neg (by simp [hs])]
    unfold History.addLine
    rw [if_pos (by simp [hs])]

theorem addHistLine_topMargin (s : Screen) :
    (s.addHistLine).topMargin = s.topMargin := by
  unfold Screen.addHistLine
  dsimp only
  rw [(addHistLineSel_core _ _).2.2.2.2.2.2.1]
  unfold Screen.hasScroll History.hasScroll
  split
  · split <;> rfl
  · rfl

/-- C1: when the cursor sits on `bottomMargin` and `index()` runs (the
`scrollUp(1)` path) on a screen whose history store accepts lines, the
displaced top line of the scroll region is retired into history iff
`topMargin = 0`: with `topMargin = 0` the history grows by one line (the
retired top row), or, at capacity, the oldest history line is dropped
and the retired row appended; with `topMargin > 0` the history is left
unchanged. -/
theorem index_retires_iff_topMargin_zero (s : Screen)
    (hscroll : s.history.hasScroll = true) (hcur : s.cuY = s.bottomMargin) :
    ((s.topMargin = 0 ∧ ∀ cap ∈ s.history.capacity, s.history.histLines.length < cap) →
      (s.index).history.histLines = s.history.histLines ++ [s.retiredLine] ∧
      (s.index).history.histLines.length = s.history.histLines.length + 1) ∧
    ((s.topMargin = 0 ∧ ∃ cap ∈ s.history.capacity, cap ≤ s.history.histLines.length) →
      (s.index).history.histLines = s.history.histLines.drop 1 ++ [s.retiredLine]) ∧
    (s.topMargin ≠ 0 → (s.index).history = s.history) := by
  have hidx : s.index = s.scrollUp 1 := by
    unfold Screen.index
    rw [if_pos hcur]
  have hflag : s.history.hasScrollFlag = true := hscroll
  refine ⟨?_, ?_, ?_⟩
  · rintro ⟨htop, hcap⟩
    have h1 : s.index.history = (s.addHistLine).history := by
      rw [hidx]
      unfold Screen.scrollUp
      dsimp only
      rw [if_pos htop, scrollUpFrom_history]
    rw [h1, addHistLine_history]
    unfold History.addLine
    rw [if_neg (by simp [hflag])]
    cases hc : s.history.capacity with
    | none => simp [Screen.retiredLine]
    | some cap =>
        have hlt : s.history.histLines.length < cap := hcap cap (by simp [hc])
        simp [hlt, Screen.retiredLine]
  · rintro ⟨htop, cap, hcap, hle⟩
    have h1 : s.index.history = (s.addHistLine).history := by
      rw [hidx]
      unfold Screen.scrollUp
      dsimp only
      rw [if_pos htop, scrollUpFrom_history]
    rw [h1, addHistLine_history]
    unfold History.addLine
    rw [if_neg (by simp [hflag])]
    have hc : s.history.capacity = some cap := hcap
    rw [hc]
    dsimp only
    rw [if_neg (by omega)]
    simp [Screen.retiredLine]
  · intro htop
    rw [hidx]
    unfold Screen.scrollUp
    dsimp only
    rw [if_neg htop, scrollUpFrom_history]

theorem moveImage_fields (s : Screen) (dest sourceBegin sourceEnd : Int) :
    (s.moveImage dest sourceBegin sourceEnd).scrolledLines = s.scrolledLines ∧
    (s.moveImage dest sourceBegin sourceEnd).columns = s.columns ∧
    (s.moveImage dest sourceBegin sourceEnd).lines = s.lines ∧
    (s.moveImage dest sourceBegin sourceEnd).topMargin = s.topMargin ∧
    (s.moveImage dest sourceBegin sourceEnd).bottomMargin = s.bottomMargin ∧
    (s.moveImage dest sourceBegin sourceEnd).currentForeground = s.currentForeground ∧
    (s.moveImage dest sourceBegin sourceEnd).currentBackground = s.currentBackground := by
  unfold Screen.moveImage
  dsimp only
  exact ⟨(moveImageAdjust_core _ _ _ _).2.2.2.1,
    (moveImageAdjust_core _ _ _ _).2.2.2.2.1,
    (moveImageAdjust_core _ _ _ _).2.2.2.2.2.1,
    (moveImageAdjust_core _ _ _ _).2.2.2.2.2.2.1,
    (moveImageAdjust_core _ _ _ _).2.2.2.2.2.2.2.1,
    (moveImageAdjust_core _ _ _ _).2.2.2.2.2.2.2.2.1,
    (moveImageAdjust_core _ _ _ _).2.2.2.2.2.2.2.2.2.1⟩

theorem moveImage_getD (s : Screen) (a b m r : Int)
    (hc : 1 ≤ s.columns) (ha : 0 ≤ a) (hb : 0 ≤ b) (hm : 0 ≤ m)
    (hr : 0 ≤ r) (hrc : r < s.columns) (j : Nat) :
    ((s.moveImage (a * s.columns) (b * s.columns)
        (b * s.columns + (m * s.columns + r))).screenLines.getD j [] =
      if a.toNat ≤ j ∧ j < a.toNat + (m.toNat + 1) ∧ j < s.screenLines.length
      then s.screenLines.getD (b.toNat + (j - a.toNat)) []
      else s.screenLines.getD j []) ∧
    ((s.moveImage (a * s.columns) (b * s.columns)
        (b * s.columns + (m * s.columns + r))).lineProperties.getD j 0 =
      if a.toNat ≤ j ∧ j < a.toNat + (m.toNat + 1) ∧ j < s.lineProperties.length
      then s.lineProperties.getD (b.toNat + (j - a.toNat)) 0
      else s.lineProperties.getD j 0) ∧
    (s.moveImage (a * s.columns) (b * s.columns)
        (b * s.columns + (m * s.columns + r))).screenLines.length
      = s.screenLines.length ∧
    (s.moveImage (a * s.columns) (b * s.columns)
        (b * s.columns + (m * s.columns + r))).lineProperties.length
      = s.lineProperties.length := by
  have hc0 : s.columns ≠ 0 := by omega
  unfold Screen.moveImage
  dsimp only
  have hSE : b * s.columns + (m * s.columns + r) - b * s.columns
      = r + s.columns * m := by ring
  have hdiv : (r + s.columns * m) / s.columns = m := by
    rw [Int.add_mul_ediv_left r m hc0, Int.ediv_eq_zero_of_lt hr hrc]
    ring
  have hdest : a * s.columns / s.columns = a := Int.mul_ediv_cancel a hc0
  have hsrc : b * s.columns / s.columns = b := Int.mul_ediv_cancel b hc0
  rw [hSE, hdiv, hdest, hsrc]
  have hn1 : (m + 1).toNat = m.toNat + 1 := by omega
  rw [hn1]
  have hfun : (fun (pair : List (List Character) × List Nat) (i : Nat) =>
        (pair.1.set (a + (i : Int)).toNat (s.screenLines.getD (b + (i : Int)).toNat []),
         pair.2.set (a + (i : Int)).toNat (s.lineProperties.getD (b + (i : Int)).toNat 0)))
      = (fun (pair : List (List Character) × List Nat) (i : Nat) =>
        (pair.1.set (a.toNat + i) (s.screenLines.getD (b.toNat + i) []),
         pair.2.set (a.toNat + i) (s.lineProperties.getD (b.toNat + i) 0))) := by
    funext pair i
    rw [show (a + (i : Int)).toNat = a.toNat + i by omega,
        show (b + (i : Int)).toNat = b.toNat + i by omega]
  rw [hfun]
  rw [foldl_pair_indep
    (fun (x : List (List Character)) (i : Nat) =>
      x.set (a.toNat + i) (s.screenLines.getD (b.toNat + i) []))
    (fun (x : List Nat) (i : Nat) =>
      x.set (a.toNat + i) (s.lineProperties.getD (b.toNat + i) 0))]
  refine ⟨?_, ?_, ?_, ?_⟩
  · rw [(moveImageAdjust_core _ _ _ _).2.1]
    exact foldl_set_affine [] a.toNat _ (m.toNat + 1) s.screenLines j
  · rw [(moveImageAdjust_core _ _ _ _).2.2.1]
    exact foldl_set_affine 0 a.toNat _ (m.toNat + 1) s.lineProperties j
  · rw [(moveImageAdjust_core _ _ _ _).2.1]
    exact foldl_set_length (fun i => a.toNat + i) _ (m.toNat + 1) s.screenLines
  · rw [(moveImageAdjust_core _ _ _ _).2.2.1]
    exact foldl_set_length (fun i => a.toNat + i) _ (m.toNat + 1) s.lineProperties

theorem clearSelection_screenLines (s : Screen) :
    (s.clearSelection).screenLines = s.screenLines := rfl
theorem clearSelection_lineProperties (s : Screen) :
    (s.clearSelection).lineProperties = s.lineProperties := rfl
theorem clearSelection_columns (s : Screen) :
    (s.clearSelection).columns = s.columns := rfl
theorem clearSelection_currentForeground (s : Screen) :
    (s.clearSelection).currentForeground = s.currentForeground := rfl
theorem clearSelection_currentBackground (s : Screen) :
    (s.clearSelection).currentBackground = s.currentBackground := rfl

theorem vectorResize_length (line : List Character) (n : Nat) :
    (vectorResize line n).length = n := by
  unfold vectorResize
  split <;> simp <;> omega

theorem fillRange_getD (l : List Character) (a b : Nat) (ch : Character)
    (j : Nat) (d : Character) :
    (fillRange l a b ch).getD j d =
      if j < l.length then (if a ≤ j ∧ j ≤ b then ch else l.getD j DefaultChar)
      else d := by
  unfold fillRange
  simp only [List.getD_eq_getElem?_getD, List.getElem?_map, List.getElem?_range]
  by_cases hj : j < l.length
  · simp [hj, List.getElem?_range]
  · rw [if_neg hj]
    have hnone : (List.range l.length)[j]? = none :=
      List.getElem?_eq_none (by simpa using Nat.le_of_not_lt hj)
    rw [hnone]
    rfl

/-- The per-row effect of a full-width `Screen::clearImage` call: shrink
the line to nothing when the clear character is the default cell, else
grow it to `columns` if needed and fill columns `0..columns-1` with the
clear character. -/
@[reducible] def clearedRow (cols : Nat) (clearCh : Character) (line : List Character) :
    List Character :=
  if clearCh = DefaultChar then vectorResize line 0
  else
    fillRange (if line.length < cols then vectorResize line cols else line)
      0 (cols - 1) clearCh

theorem clearedRow_getD (cols : Nat) (clearCh : Character) (line : List Character)
    (x : Nat) (hx : x < cols) (h1 : 1 ≤ cols) :
    (clearedRow cols clearCh line).getD x DefaultChar = clearCh := by
  unfold clearedRow
  split
  · rename_i hdef
    rw [hdef]
    unfold vectorResize
    simp
  · rw [fillRange_getD]
    have hlen : (if line.length < cols then vectorResize line cols else line).length ≥ cols := by
      split
      · rw [vectorResize_length]
      · omega
    rw [if_pos (by omega), if_pos (by omega)]

theorem clearImage_getD (s : Screen) (top bot : Int) (c : Nat)
    (hc : 1 ≤ s.columns) (h0 : 0 ≤ top) (j : Nat) :
    ((s.clearImage (top * s.columns) (bot * s.columns + (s.columns - 1)) c).screenLines.getD j [] =
      if top.toNat ≤ j ∧ j < top.toNat + (bot - top + 1).toNat ∧ j < s.screenLines.length
      then clearedRow s.columns.toNat
        ⟨c, s.currentForeground, s.currentBackground, DEFAULT_RENDITION, false⟩
        (s.screenLines.getD j [])
      else s.screenLines.getD j []) ∧
    ((s.clearImage (top * s.columns) (bot * s.columns + (s.columns - 1)) c).lineProperties.getD j 0 =
      if top.toNat ≤ j ∧ j < top.toNat + (bot - top + 1).toNat ∧ j < s.lineProperties.length
      then 0 else s.lineProperties.getD j 0) ∧
    (s.clearImage (top * s.columns) (bot * s.columns + (s.columns - 1)) c).screenLines.length
      = s.screenLines.length ∧
    (s.clearImage (top * s.columns) (bot * s.columns + (s.columns - 1)) c).lineProperties.length
      = s.lineProperties.length := by
  have hc0 : s.columns ≠ 0 := by omega
  unfold Screen.clearImage
  dsimp only
  split
  all_goals
    try simp only [clearSelection_screenLines, clearSelection_lineProperties,
      clearSelection_columns, clearSelection_currentForeground,
      clearSelection_currentBackground]
    rw [show top * s.columns / s.columns = top from Int.mul_ediv_cancel top hc0]
    rw [show (bot * s.columns + (s.columns - 1)) / s.columns = bot by
      rw [show bot * s.columns + (s.columns - 1) = (s.columns - 1) + s.columns * bot by ring,
          Int.add_mul_ediv_left _ bot hc0, Int.ediv_eq_zero_of_lt (by omega) (by omega)]
      ring]
    rw [show (bot * s.columns + (s.columns - 1)) % s.columns = s.columns - 1 by
      rw [show bot * s.columns + (s.columns - 1) = (s.columns - 1) + s.columns * bot by ring]
      rw [Int.add_mul_emod_self_left, Int.emod_eq_of_lt (by omega) (by omega)]]
    rw [show top * s.columns % s.columns = 0 from Int.mul_emod_left top s.columns]
    simp only [ite_self, eq_self_iff_true, and_true, Int.toNat_zero,
      (show (0:Int) ≤ s.columns - 1 by omega), if_true,
      (show ∀ i : Nat, (top + (i:Int)).toNat = top.toNat + i from fun i => by omega),
      (show (s.columns - 1 + 1).toNat = s.columns.toNat from by omega),
      (show (s.columns - 1).toNat = s.columns.toNat - 1 from by omega)]
    rw [foldl_pair_indep
      (fun (x : List (List Character)) (i : Nat) =>
        x.set (top.toNat + i)
          (clearedRow s.columns.toNat
            ⟨c, s.currentForeground, s.currentBackground, DEFAULT_RENDITION, false⟩
            (x.getD (top.toNat + i) [])))
      (fun (x : List Nat) (i : Nat) => x.set (top.toNat + i) 0)]
    exact ⟨foldl_set_affine_dep [] top.toNat
        (fun _ line => clearedRow s.columns.toNat
          ⟨c, s.currentForeground, s.currentBackground, DEFAULT_RENDITION, false⟩ line)
        ((bot - top + 1).toNat) s.screenLines j,
      foldl_set_affine 0 top.toNat (fun _ => 0) ((bot - top + 1).toNat) s.lineProperties j,
      foldl_set_length (fun i => top.toNat + i) _ ((bot - top + 1).toNat) s.screenLines,
      foldl_set_length (fun i => top.toNat + i) _ ((bot - top + 1).toNat) s.lineProperties⟩

theorem clearImage_fields (s : Screen) (loca loce : Int) (c : Nat) :
    (s.clearImage loca loce c).scrolledLines = s.scrolledLines ∧
    (s.clearImage loca loce c).columns = s.columns ∧
    (s.clearImage loca loce c).lines = s.lines ∧
    (s.clearImage loca loce c).topMargin = s.topMargin ∧
    (s.clearImage loca loce c).bottomMargin = s.bottomMargin ∧
    (s.clearImage loca loce c).currentForeground = s.currentForeground ∧
    (s.clearImage loca loce c).currentBackground = s.currentBackground := by
  unfold Screen.clearImage Screen.clearSelection
  dsimp only
  split
  all_goals exact ⟨rfl, rfl, rfl, rfl, rfl, rfl, rfl⟩

/-- A 24×80 screen with the cursor on the bottom margin and a bounded
(capacity 100) history, used by the C1 witness. -/
def testScrollScreen : Screen := { testScreen with cuY := 23 }

/-- Witness for C1: on the concrete screen an `index()` at the bottom
margin with `topMargin = 0` appends the retired top row to the history
and grows it by one line. -/
theorem index_retires_iff_topMargin_zero_witness :
    (testScrollScreen.index).history.histLines =
      testScrollScreen.history.histLines ++ [testScrollScreen.retiredLine] ∧
    (testScrollScreen.index).history.histLines.length =
      testScrollScreen.history.histLines.length + 1 :=
  (index_retires_iff_topMargin_zero testScrollScreen (by decide) (by decide)).1
    ⟨by decide, by
      intro cap hc
      simp [testScrollScreen, testScreen] at hc
      subst hc
      decide⟩

/-! ## Claim C2: scrollUp / scrollDown clamping, scrolledLines, blank fill -/

/-- The moveImage/clearImage tail of `Screen::scrollUp(int, int)`
(src/Screen.cpp:1005-1011), applied after the clamp has produced `n2`. -/
def scrollUpPhase (s : Screen) (f n2 : Int) : Screen :=
  let s2 : Screen := s.moveImage (s.loc 0 f) (s.loc 0 (f + n2))
    (s.loc s.columns s.bottomMargin)
  s2.clearImage (s2.loc 0 (s2.bottomMargin - n2 + 1))
    (s2.loc (s2.columns - 1) s2.bottomMargin) 32

/-- The moveImage/clearImage tail of `Screen::scrollDown(int, int)`
(src/Screen.cpp:1033-1037), applied after the clamp has produced `n2`. -/
def scrollDownPhase (s : Screen) (f n2 : Int) : Screen :=
  let s2 : Screen := s.moveImage (s.loc 0 (f + n2)) (s.loc 0 f)
    (s.loc (s.columns - 1) (s.bottomMargin - n2))
  s2.clearImage (s2.loc 0 f) (s2.loc (s2.columns - 1) (f + n2 - 1)) 32

/-- Restatement of `clearImage_getD` with the receiver's fields abstracted,
so it can be applied to a `moveImage` result whose fields are only
propositionally equal to the base screen's. -/
theorem clearImage_getD' (s : Screen) (top bot : Int) (c : Nat)
    (col : Int) (fg bg : CharacterColor)
    (hcol : s.columns = col) (hfg : s.currentForeground = fg)
    (hbg : s.currentBackground = bg)
    (hc : 1 ≤ col) (h0 : 0 ≤ top) (j : Nat) :
    ((s.clearImage (top * col) (bot * col + (col - 1)) c).screenLines.getD j [] =
      if top.toNat ≤ j ∧ j < top.toNat + (bot - top + 1).toNat ∧ j < s.screenLines.length
      then clearedRow col.toNat ⟨c, fg, bg, DEFAULT_RENDITION, false⟩
        (s.screenLines.getD j [])
      else s.screenLines.getD j []) ∧
    ((s.clearImage (top * col) (bot * col + (col - 1)) c).lineProperties.getD j 0 =
      if top.toNat ≤ j ∧ j < top.toNat + (bot - top + 1).toNat ∧ j < s.lineProperties.length
      then 0 else s.lineProperties.getD j 0) ∧
    (s.clearImage (top * col) (bot * col + (col - 1)) c).screenLines.length
      = s.screenLines.length ∧
    (s.clearImage (top * col) (bot * col + (col - 1)) c).lineProperties.length
      = s.lineProperties.length := by
  subst hcol
  subst hfg
  subst hbg
  exact clearImage_getD s top bot c hc h0 j

theorem scrollUpFrom_eq (s : Screen) (f n : Int) (hn : 0 < n)
    (hf : f ≤ s.bottomMargin) :
    s.scrollUpFrom f n =
      scrollUpPhase
        { s with
          scrolledLines := s.scrolledLines - min n (s.bottomMargin + 1 - f),
          lastScrolledRegion :=
            (0, s.topMargin, s.columns - 1, s.bottomMargin - s.topMargin) }
        f (min n (s.bottomMargin + 1 - f)) := by
  unfold Screen.scrollUpFrom
  rw [if_neg (by omega : ¬ n ≤ 0), if_neg (by omega : ¬ f > s.bottomMargin),
    show (if f + n > s.bottomMargin then s.bottomMargin + 1 - f else n)
      = min n (s.bottomMargin + 1 - f) from by split <;> omega]
  rfl

theorem scrollDownFrom_eq (s : Screen) (f n : Int) (hn : 0 < n)
    (hf : f ≤ s.bottomMargin) :
    s.scrollDownFrom f n =
      scrollDownPhase { s with scrolledLines := s.scrolledLines + n } f
        (min n (s.bottomMargin - f)) := by
  unfold Screen.scrollDownFrom
  dsimp only
  rw [if_neg (by omega : ¬ n ≤ 0), if_neg (by omega : ¬ f > s.bottomMargin),
    show (if f + n > s.bottomMargin then s.bottomMargin - f else n)
      = min n (s.bottomMargin - f) from by split <;> omega]
  rfl

theorem scrollUpPhase_spec (s : Screen) (f n2 : Int)
    (hc : 1 ≤ s.columns) (hf0 : 0 ≤ f) (hn2 : 0 < n2)
    (hfb : f + n2 ≤ s.bottomMargin + 1)
    (hbl : (s.bottomMargin + 1).toNat ≤ s.screenLines.length) :
    (scrollUpPhase s f n2).scrolledLines = s.scrolledLines ∧
    (∀ j : Nat, j < f.toNat ∨ s.bottomMargin.toNat < j →
      (scrollUpPhase s f n2).screenLines.getD j [] = s.screenLines.getD j [] ∧
      (scrollUpPhase s f n2).lineProperties.getD j 0 = s.lineProperties.getD j 0) ∧
    (∀ j x : Nat, (s.bottomMargin + 1 - n2).toNat ≤ j → j ≤ s.bottomMargin.toNat →
      x < s.columns.toNat →
      ((scrollUpPhase s f n2).screenLines.getD j []).getD x DefaultChar =
        ⟨32, s.currentForeground, s.currentBackground, DEFAULT_RENDITION, false⟩) := by
  unfold scrollUpPhase Screen.loc
  dsimp only
  rw [show f * s.columns + 0 = f * s.columns from by ring,
    show (f + n2) * s.columns + 0 = (f + n2) * s.columns from by ring,
    show s.bottomMargin * s.columns + s.columns
      = (f + n2) * s.columns + ((s.bottomMargin + 1 - f - n2) * s.columns + 0)
      from by ring]
  have hMf := moveImage_fields s (f * s.columns) ((f + n2) * s.columns)
    ((f + n2) * s.columns + ((s.bottomMargin + 1 - f - n2) * s.columns + 0))
  rw [hMf.2.1, hMf.2.2.2.2.1]
  rw [show (s.bottomMargin - n2 + 1) * s.columns + 0
      = (s.bottomMargin - n2 + 1) * s.columns from by ring]
  have hmv := fun j => moveImage_getD s f (f + n2) (s.bottomMargin + 1 - f - n2) 0
    hc hf0 (by omega) (by omega) (by omega) (by omega) j
  have hclr := fun j => clearImage_getD'
    (s.moveImage (f * s.columns) ((f + n2) * s.columns)
      ((f + n2) * s.columns + ((s.bottomMargin + 1 - f - n2) * s.columns + 0)))
    (s.bottomMargin - n2 + 1) s.bottomMargin 32 s.columns s.currentForeground
    s.currentBackground hMf.2.1 hMf.2.2.2.2.2.1 hMf.2.2.2.2.2.2 hc (by omega) j
  refine ⟨?_, fun j hj => ⟨?_, ?_⟩, fun j x h1 h2 hx => ?_⟩
  · rw [(clearImage_fields _ _ _ _).1, hMf.1]
  · rw [(hclr j).1, (hmv 0).2.2.1, if_neg (by omega)]
    rw [(hmv j).1, if_neg (by omega)]
  · rw [(hclr j).2.1, (hmv 0).2.2.2, if_neg (by omega)]
    rw [(hmv j).2.1, if_neg (by omega)]
  · rw [(hclr j).1, (hmv 0).2.2.1, if_pos (by omega)]
    exact clearedRow_getD _ _ _ x hx (by omega)

theorem scrollDownPhase_spec (s : Screen) (f n2 : Int)
    (hc : 1 ≤ s.columns) (hf0 : 0 ≤ f) (hn2 : 0 ≤ n2)
    (hfb : f + n2 ≤ s.bottomMargin)
    (hbl : (s.bottomMargin + 1).toNat ≤ s.screenLines.length) :
    (scrollDownPhase s f n2).scrolledLines = s.scrolledLines ∧
    (∀ j : Nat, j < f.toNat ∨ s.bottomMargin.toNat < j →
      (scrollDownPhase s f n2).screenLines.getD j [] = s.screenLines.getD j [] ∧
      (scrollDownPhase s f n2).lineProperties.getD j 0 = s.lineProperties.getD j 0) ∧
    (∀ j x : Nat, f.toNat ≤ j → j < (f + n2).toNat → x < s.columns.toNat →
      ((scrollDownPhase s f n2).screenLines.getD j []).getD x DefaultChar =
        ⟨32, s.currentForeground, s.currentBackground, DEFAULT_RENDITION, false⟩) := by
  unfold scrollDownPhase Screen.loc
  dsimp only
  rw [show (f + n2) * s.columns + 0 = (f + n2) * s.columns from by ring,
    show f * s.columns + 0 = f * s.columns from by ring,
    show (s.bottomMargin - n2) * s.columns + (s.columns - 1)
      = f * s.columns + ((s.bottomMargin - n2 - f) * s.columns + (s.columns - 1))
      from by ring]
  have hMf := moveImage_fields s ((f + n2) * s.columns) (f * s.columns)
    (f * s.columns + ((s.bottomMargin - n2 - f) * s.columns + (s.columns - 1)))
  rw [hMf.2.1]
  rw [show f * s.columns + 0 = f * s.columns from by ring]
  have hmv := fun j => moveImage_getD s (f + n2) f (s.bottomMargin - n2 - f)
    (s.columns - 1) hc (by omega) hf0 (by omega) (by omega) (by omega) j
  have hclr := fun j => clearImage_getD'
    (s.moveImage ((f + n2) * s.columns) (f * s.columns)
      (f * s.columns + ((s.bottomMargin - n2 - f) * s.columns + (s.columns - 1))))
    f (f + n2 - 1) 32 s.columns s.currentForeground
    s.currentBackground hMf.2.1 hMf.2.2.2.2.2.1 hMf.2.2.2.2.2.2 hc hf0 j
  refine ⟨?_, fun j hj => ⟨?_, ?_⟩, fun j x h1 h2 hx => ?_⟩
  · rw [(clearImage_fields _ _ _ _).1, hMf.1]
  · rw [(hclr j).1, (hmv 0).2.2.1, if_neg (by omega)]
    rw [(hmv j).1, if_neg (by omega)]
  · rw [(hclr j).2.1, (hmv 0).2.2.2, if_neg (by omega)]
    rw [(hmv j).2.1, if_neg (by omega)]
  · rw [(hclr j).1, (hmv 0).2.2.1, if_pos (by omega)]
    exact clearedRow_getD _ _ _ x hx (by omega)

/-- C2: for `0 ≤ from ≤ bottomMargin` and `n > 0`, `scrollUp(from, n)` and
`scrollDown(from, n)` clamp the moved and cleared rows to the region
`[from, bottomMargin]` (rows outside it are untouched) and fill the vacated
rows with blank (space) cells carrying the current foreground and
background colors; `scrollUp` changes `_scrolledLines` by exactly minus the
clamped `n`, but `scrollDown` adds the UNCLAMPED `n` to `_scrolledLines`
(the `+=` in src/Screen.cpp:1024 runs before the clamp), which corrects the
claim's "exactly the clamped n" for the scroll-down direction. -/
theorem scroll_clamp_scrolledLines_blankfill (s : Screen) (f n : Int)
    (hc : 1 ≤ s.columns) (hf0 : 0 ≤ f) (hfb : f ≤ s.bottomMargin) (hn : 0 < n)
    (hbl : (s.bottomMargin + 1).toNat ≤ s.screenLines.length) :
    (s.scrollUpFrom f n).scrolledLines
        = s.scrolledLines - min n (s.bottomMargin + 1 - f) ∧
    (s.scrollDownFrom f n).scrolledLines = s.scrolledLines + n ∧
    (∀ j : Nat, j < f.toNat ∨ s.bottomMargin.toNat < j →
      (s.scrollUpFrom f n).screenLines.getD j [] = s.screenLines.getD j [] ∧
      (s.scrollUpFrom f n).lineProperties.getD j 0 = s.lineProperties.getD j 0 ∧
      (s.scrollDownFrom f n).screenLines.getD j [] = s.screenLines.getD j [] ∧
      (s.scrollDownFrom f n).lineProperties.getD j 0 = s.lineProperties.getD j 0) ∧
    (∀ j x : Nat,
      (s.bottomMargin + 1 - min n (s.bottomMargin + 1 - f)).toNat ≤ j →
      j ≤ s.bottomMargin.toNat → x < s.columns.toNat →
      ((s.scrollUpFrom f n).screenLines.getD j []).getD x DefaultChar =
        ⟨32, s.currentForeground, s.currentBackground, DEFAULT_RENDITION, false⟩) ∧
    (∀ j x : Nat, f.toNat ≤ j → j < (f + min n (s.bottomMargin - f)).toNat →
      x < s.columns.toNat →
      ((s.scrollDownFrom f n).screenLines.getD j []).getD x DefaultChar =
        ⟨32, s.currentForeground, s.currentBackground, DEFAULT_RENDITION, false⟩) := by
  have hup := scrollUpPhase_spec
    { s with
      scrolledLines := s.scrolledLines - min n (s.bottomMargin + 1 - f),
      lastScrolledRegion :=
        (0, s.topMargin, s.columns - 1, s.bottomMargin - s.topMargin) }
    f (min n (s.bottomMargin + 1 - f)) hc hf0
    (show 0 < min n (s.bottomMargin + 1 - f) from by omega)
    (show f + min n (s.bottomMargin + 1 - f) ≤ s.bottomMargin + 1 from by omega)
    hbl
  have hdn := scrollDownPhase_spec { s with scrolledLines := s.scrolledLines + n }
    f (min n (s.bottomMargin - f)) hc hf0
    (show 0 ≤ min n (s.bottomMargin - f) from by omega)
    (show f + min n (s.bottomMargin - f) ≤ s.bottomMargin from by omega)
    hbl
  rw [scrollUpFrom_eq s f n hn hfb, scrollDownFrom_eq s f n hn hfb]
  exact ⟨hup.1, hdn.1,
    fun j hj => ⟨(hup.2.1 j hj).1, (hup.2.1 j hj).2, (hdn.2.1 j hj).1,
      (hdn.2.1 j hj).2⟩,
    fun j x h1 h2 hx => hup.2.2 j x h1 h2 hx,
    fun j x h1 h2 hx => hdn.2.2 j x h1 h2 hx⟩

/-- C2 counterexample: on the concrete 24×80 screen (`bottomMargin = 23`),
`scrollDown(20, 10)` adds the unclamped 10 to `_scrolledLines`, not the
clamped amount `min 10 (bottomMargin - 20) = 3` that bounds the rows
actually moved and cleared. -/
theorem scrollDown_scrolledLines_unclamped :
    (testScreen.scrollDownFrom 20 10).scrolledLines
        = testScreen.scrolledLines + 10 ∧
    (testScreen.scrollDownFrom 20 10).scrolledLines
        ≠ testScreen.scrolledLines + min 10 (testScreen.bottomMargin - 20) := by
  constructor
  · rfl
  · decide

/-- Witness for C2: the clamp theorem applied at the concrete screen with
`from = 20`, `n = 10`. -/
theorem scroll_clamp_scrolledLines_blankfill_witness :
    (testScreen.scrollUpFrom 20 10).scrolledLines
        = testScreen.scrolledLines - min 10 (testScreen.bottomMargin + 1 - 20) ∧
    (testScreen.scrollDownFrom 20 10).scrolledLines
        = testScreen.scrolledLines + 10 :=
  ⟨(scroll_clamp_scrolledLines_blankfill testScreen 20 10 (by decide) (by decide)
      (by decide) (by decide) (by decide)).1,
   (scroll_clamp_scrolledLines_blankfill testScreen 20 10 (by decide) (by decide)
      (by decide) (by decide) (by decide)).2.1⟩


end Konsole
